import Mathlib

/-!
# GoTOPO30: tile selection, header parsing and pixel resolution

A shallow embedding of `gtopo30.go` and the properties of its three
components (tile locator, header reader, elevation sampler).

Conventions of the embedding.

* `float64` is the type `F64`: a finite value is the rational it denotes, and
  the two infinities and NaN are separate values.  Arithmetic rounds to the
  nearest binary64 value, ties to even (`roundF64`).  Signed zeros are
  identified.
* `int` is the 64-bit Go `int`; integer arithmetic that can overflow wraps
  through `wrap64`.  What Go leaves to the implementation (the result of
  converting an unrepresentable float64 to `int`, the largest allocation) is
  the parameter `Arch`.
* A Go result `(value, error)` is a pair whose second component is `none` for
  a `nil` error; a run-time panic is a separate outcome.
* Files are what the operating system delivers: the lines a `bufio.Scanner`
  yields for a header, the bytes of a DEM.  For a header given by its text,
  `scanText` is the scanner with its default buffer of 64 KiB: a line that
  does not fit the buffer ends the scan with `ErrTooLong`.
* `strconv.ParseInt` is embedded; `strconv.ParseFloat` is a parameter of the
  header reader.
-/

namespace GoTOPO30

/-! ## float64 -/

/-- A `float64` value. -/
inductive F64 where
  | fin (q : ℚ)
  | pinf
  | ninf
  | nan
deriving DecidableEq, Repr

namespace F64

/-- Go `a <= b` on float64: false as soon as an operand is NaN. -/
def le : F64 → F64 → Bool
  | fin a, fin b => decide (a ≤ b)
  | nan, _ => false
  | _, nan => false
  | ninf, _ => true
  | _, pinf => true
  | _, _ => false

/-- Go `a < b` on float64: false as soon as an operand is NaN. -/
def lt : F64 → F64 → Bool
  | fin a, fin b => decide (a < b)
  | nan, _ => false
  | _, nan => false
  | pinf, _ => false
  | _, ninf => false
  | _, _ => true

/-- Go `a >= b`. -/
def ge (a b : F64) : Bool := le b a

/-- Go `a > b`. -/
def gt (a b : F64) : Bool := lt b a

end F64

/-- Nearest integer, ties to the even one. -/
def roundHalfEven (q : ℚ) : Int :=
  let f := Int.floor q
  let r := q - f
  if r < 1 / 2 then f else if 1 / 2 < r then f + 1 else if f % 2 = 0 then f else f + 1

/-- The binary logarithm, rounded down, by halving at most `fuel` times. -/
def log2Fuel : Nat → Nat → Nat
  | 0, _ => 0
  | fuel + 1, n => if 2 ≤ n then log2Fuel fuel (n / 2) + 1 else 0

/-- The binary logarithm of a positive natural number, rounded down. -/
def ilog2 (n : Nat) : Nat := log2Fuel n n

/-- The binary exponent of a non-zero rational: `2 ^ e ≤ |q| < 2 ^ (e + 1)`. -/
def binExp (q : ℚ) : Int :=
  let e0 : Int := (ilog2 q.num.natAbs : Int) - (ilog2 q.den : Int)
  if |q| < (2 : ℚ) ^ e0 then e0 - 1 else e0

/-- IEEE 754 binary64 rounding of an exact result, round-to-nearest-even:
53 significant bits, minimum exponent -1022 (gradual underflow), overflow to
an infinity from `2 ^ 1024` on. -/
def roundF64 (q : ℚ) : F64 :=
  if q = 0 then .fin 0
  else
    let e := max (binExp q) (-1022)
    let ulp : ℚ := (2 : ℚ) ^ (e - 52)
    let r : ℚ := (roundHalfEven (q / ulp) : ℚ) * ulp
    if (2 : ℚ) ^ (1024 : Int) ≤ r then .pinf
    else if r ≤ -((2 : ℚ) ^ (1024 : Int)) then .ninf
    else .fin r

namespace F64

/-- Go `a - b` on float64. -/
def sub : F64 → F64 → F64
  | fin a, fin b => roundF64 (a - b)
  | nan, _ => nan
  | _, nan => nan
  | pinf, pinf => nan
  | ninf, ninf => nan
  | pinf, _ => pinf
  | ninf, _ => ninf
  | fin _, pinf => ninf
  | fin _, ninf => pinf

/-- Go `a / b` on float64.  A zero divisor counts as `+0`. -/
def div : F64 → F64 → F64
  | fin a, fin b =>
    if b = 0 then (if a = 0 then nan else if 0 < a then pinf else ninf)
    else roundF64 (a / b)
  | nan, _ => nan
  | _, nan => nan
  | fin _, pinf => fin 0
  | fin _, ninf => fin 0
  | pinf, fin b => if 0 ≤ b then pinf else ninf
  | ninf, fin b => if 0 ≤ b then ninf else pinf
  | pinf, pinf => nan
  | pinf, ninf => nan
  | ninf, pinf => nan
  | ninf, ninf => nan

end F64

/-! ## Errors and results -/

/-- The errors the package builds, one constructor per site. -/
inductive GoError where
  /-- Message "could not get filename for given lat/lon". -/
  | noFileName
  /-- The error of `os.Open`, returned as it is. -/
  | openFailed
  /-- Message "error parsing KEY: ...", with the key of the line. -/
  | parseKey (key : String)
  /-- The error of `scanner.Err()`, returned as it is. -/
  | scanFailed
  /-- Message "failed to open file :...". -/
  | demOpenFailed
  /-- Message "failed to read binary data: ...". -/
  | demReadFailed
  /-- Message "coordinates out of bounds". -/
  | outOfBounds
  /-- Message "failed to get file name for lat/lon: ...". -/
  | fileNamePhase (cause : GoError)
  /-- Message "failed to get header file information: ...". -/
  | headerPhase (cause : GoError)
  /-- Message "failed to get elevation: ...". -/
  | elevationPhase (cause : GoError)
deriving DecidableEq, Repr

/-! ## Tile locator -/

structure LatRange where
  min : F64
  max : F64
  label : String
deriving DecidableEq, Repr

structure LonRange where
  min : F64
  max : F64
  label : String
deriving DecidableEq, Repr

def latRanges : List LatRange :=
  [ ⟨.fin 40, .fin 90, "N90"⟩,
    ⟨.fin (-10), .fin 40, "N40"⟩,
    ⟨.fin (-60), .fin (-10), "S10"⟩,
    ⟨.fin (-90), .fin (-60), "S60"⟩ ]

def lonRanges : List LonRange :=
  [ ⟨.fin (-180), .fin (-140), "W180"⟩,
    ⟨.fin (-140), .fin (-100), "W140"⟩,
    ⟨.fin (-100), .fin (-60), "W100"⟩,
    ⟨.fin (-60), .fin (-20), "W060"⟩,
    ⟨.fin (-20), .fin 20, "W020"⟩,
    ⟨.fin 20, .fin 60, "E020"⟩,
    ⟨.fin 60, .fin 100, "E060"⟩,
    ⟨.fin 100, .fin 140, "E100"⟩,
    ⟨.fin 140, .fin 180, "E140"⟩ ]

/-- The first loop of `getFileName`: the label of the first latitude range
that holds `lat`, bounds included, or the empty string. -/
def latLabelOf (lat : F64) : String :=
  match latRanges.find? (fun lr => F64.ge lat lr.min && F64.le lat lr.max) with
  | some lr => lr.label
  | none => ""

/-- The second loop of `getFileName`: the label of the first longitude range
that holds `lon`, bounds included, or the empty string. -/
def lonLabelOf (lon : F64) : String :=
  match lonRanges.find? (fun lr => F64.ge lon lr.min && F64.le lon lr.max) with
  | some lr => lr.label
  | none => ""

/-- The `switch` of `getFileName` for the band S60: the first case that
holds, or `none` when the switch falls through. -/
def polarSwitch (lon : F64) : Option String :=
  if F64.ge lon (.fin (-180)) && F64.lt lon (.fin (-120)) then some "W180S60"
  else if F64.ge lon (.fin (-120)) && F64.lt lon (.fin (-60)) then some "W120S60"
  else if F64.ge lon (.fin (-60)) && F64.lt lon (.fin 0) then some "W060S60"
  else if F64.ge lon (.fin 0) && F64.lt lon (.fin 60) then some "W000S60"
  else if F64.ge lon (.fin 60) && F64.lt lon (.fin 120) then some "E060S60"
  else if F64.ge lon (.fin 120) && F64.le lon (.fin 180) then some "E120S60"
  else none

def getFileName (lat : F64) (lon : F64) : String × Option GoError :=
  let latLabel := latLabelOf lat
  let lonLabel := lonLabelOf lon
  match (if latLabel = "S60" then polarSwitch lon else none) with
  | some name => (name, none)
  | none =>
    if latLabel ≠ "" ∧ lonLabel ≠ "" then (lonLabel ++ latLabel, none)
    else ("", some .noFileName)

/-! ## Machine integers and conversions -/

/-- The value of a 64-bit signed integer after wrap-around. -/
def wrap64 (z : Int) : Int := (z + 2 ^ 63) % 2 ^ 64 - 2 ^ 63

/-- The value of a 32-bit signed integer after wrap-around. -/
def wrap32 (z : Int) : Int := (z + 2 ^ 31) % 2 ^ 32 - 2 ^ 31

/-- What the Go specification and runtime leave to the implementation. -/
structure Arch where
  /-- The `int` a conversion yields for a float64 that `int` cannot represent:
  NaN, an infinity, or a finite value whose integer part is outside int64. -/
  cvt : F64 → Int
  /-- The largest allocation, in bytes, that `make` accepts. -/
  maxAlloc : Nat
  /-- An allocation size fits the 64-bit `int`. -/
  maxAlloc_lt : maxAlloc < 2 ^ 63

/-- The 64-bit x86 port: every unrepresentable conversion yields the smallest
int64, and an allocation is at most `2 ^ 48` bytes. -/
def amd64 : Arch := ⟨fun _ => -(2 ^ 63), 2 ^ 48, by norm_num⟩

/-- Truncation toward zero. -/
def truncQ (q : ℚ) : Int := if 0 ≤ q then Int.floor q else Int.ceil q

/-- Go `int(x)` for a float64 `x`: the fraction is discarded. -/
def toInt (arch : Arch) (x : F64) : Int :=
  match x with
  | .fin q =>
    let t := truncQ q
    if -(2 ^ 63) ≤ t ∧ t < 2 ^ 63 then t else arch.cvt x
  | _ => arch.cvt x

/-! ## Elevation sampler -/

abbrev Byte := Fin 256

/-- The outcome of a call: a normal return of `(value, error)`, or a run-time
panic. -/
inductive Outcome (α : Type) where
  | ret (value : α) (err : Option GoError)
  | panic
deriving DecidableEq, Repr

/-- A big-endian pair of bytes read as an `int16`. -/
def int16BE (hi lo : Byte) : Int :=
  let u : Int := 256 * (hi.val : Int) + (lo.val : Int)
  if u < 32768 then u else u - 65536

def decodeInt16s : List Byte → List Int
  | hi :: lo :: rest => int16BE hi lo :: decodeInt16s rest
  | _ => []

/-- Go `binary.Read(file, binary.BigEndian, data)` for `data` of `n` int16s, on a
file that delivers `bytes` before its end: `none` stands for the error of a
short read. -/
def binaryRead (bytes : List Byte) (n : Nat) : Option (List Int) :=
  if bytes.length < 2 * n then none else some (decodeInt16s (bytes.take (2 * n)))

/-- The first half of `getElevation`. -/
inductive Load where
  | failed (value : Int) (err : GoError)
  | panicked
  | loaded (data : List Int)
deriving DecidableEq, Repr

/-- The first half of `getElevation` (open, `make`, `binary.Read`).  `file` is
`none` when the DEM cannot be opened. -/
def loadGrid (arch : Arch) (file : Option (List Byte)) (nrows : Int) (ncols : Int) : Load :=
  match file with
  | none => .failed (-9999) .demOpenFailed
  | some bytes =>
    let len := wrap64 (nrows * ncols)
    if len < 0 ∨ (arch.maxAlloc : Int) < 2 * len then .panicked
    else
      match binaryRead bytes len.toNat with
      | none => .failed 0 .demReadFailed
      | some data => .loaded data

/-- The indices `(i, j)` that `getElevation` computes. -/
def pixelIndex (arch : Arch) (targetLat targetLon ulxmap ulymap xdim ydim : F64) : Int × Int :=
  let j := toInt arch (F64.div (F64.sub targetLon ulxmap) xdim)
  let i := toInt arch (F64.div (F64.sub ulymap targetLat) ydim)
  (i, j)

def getElevation (arch : Arch) (file : Option (List Byte)) (nrows : Int) (ncols : Int)
    (targetLat targetLon ulxmap ulymap xdim ydim : F64) : Outcome Int :=
  match loadGrid arch file nrows ncols with
  | .failed value err => .ret value (some err)
  | .panicked => .panic
  | .loaded data =>
    let (i, j) := pixelIndex arch targetLat targetLon ulxmap ulymap xdim ydim
    if i ≥ 0 ∧ i < nrows ∧ j ≥ 0 ∧ j < ncols then
      let k := wrap64 (wrap64 (i * ncols) + j)
      if k < 0 then .panic
      else
        match data[k.toNat]? with
        | some v => .ret v none
        | none => .panic
    else .ret (-9999) (some .outOfBounds)

/-! ## Header reader -/

structure GTOPOHeaderInfo where
  byteOrder : Char
  layout : String
  nrows : Int
  ncols : Int
  nbands : Int
  nbits : Int
  bandRowBytes : Int
  totalRowBytes : Int
  bandGapBytes : Int
  nodata : Int
  ulxmap : F64
  ulymap : F64
  xdim : F64
  ydim : F64
deriving DecidableEq, Repr

/-- The zero value `&GTOPOHeaderInfo{}`. -/
def GTOPOHeaderInfo.zero : GTOPOHeaderInfo :=
  ⟨Char.ofNat 0, "", 0, 0, 0, 0, 0, 0, 0, 0, .fin 0, .fin 0, .fin 0, .fin 0⟩

/-- Go `unicode.IsSpace`. -/
def isSpace (c : Char) : Bool :=
  c = '\t' || c = '\n' || c.toNat = 11 || c.toNat = 12 || c = '\r' || c = ' ' ||
    c.toNat = 0x85 || c.toNat = 0xA0 || c.toNat = 0x1680 ||
    (0x2000 ≤ c.toNat && c.toNat ≤ 0x200A) || c.toNat = 0x2028 || c.toNat = 0x2029 ||
    c.toNat = 0x202F || c.toNat = 0x205F || c.toNat = 0x3000

/-- The loop of `strings.Fields`; `cur` holds the field being read, reversed. -/
def fieldsAux : List Char → List Char → List String
  | [], cur => if cur.isEmpty then [] else [String.mk cur.reverse]
  | c :: cs, cur =>
    if isSpace c then
      if cur.isEmpty then fieldsAux cs [] else String.mk cur.reverse :: fieldsAux cs []
    else fieldsAux cs (c :: cur)

/-- Go `strings.Fields`. -/
def fields (s : String) : List String := fieldsAux s.toList []

/-- The two errors of `strconv`. -/
inductive NumError where
  | malformed
  | outOfRange
deriving DecidableEq, Repr

/-- The loop of `strconv.ParseUint(s, 10, bitSize)` from the value `n` on. -/
def parseUintAux (bitSize : Nat) : List Char → Nat → Nat × Option NumError
  | [], n => (n, none)
  | c :: cs, n =>
    if '0' ≤ c ∧ c ≤ '9' then
      let d := c.toNat - '0'.toNat
      if n ≥ (2 ^ 64 - 1) / 10 + 1 then (2 ^ bitSize - 1, some .outOfRange)
      else
        let n1 := n * 10 + d
        if n1 ≥ 2 ^ 64 ∨ n1 > 2 ^ bitSize - 1 then (2 ^ bitSize - 1, some .outOfRange)
        else parseUintAux bitSize cs n1
    else (0, some .malformed)

/-- Go `strconv.ParseUint(s, 10, bitSize)` on the characters of `s`. -/
def parseUint (s : List Char) (bitSize : Nat) : Nat × Option NumError :=
  match s with
  | [] => (0, some .malformed)
  | _ => parseUintAux bitSize s 0

/-- Go `strconv.ParseInt(s, 10, bitSize)`: the value and the error. -/
def parseInt (s : String) (bitSize : Nat) : Int × Option NumError :=
  match s.toList with
  | [] => (0, some .malformed)
  | c :: cs =>
    let neg : Bool := c = '-'
    let digits := if c = '+' ∨ c = '-' then cs else c :: cs
    match parseUint digits bitSize with
    | (_, some .malformed) => (0, some .malformed)
    | (un, _) =>
      let cutoff : Nat := 2 ^ (bitSize - 1)
      if neg = false ∧ un ≥ cutoff then ((cutoff : Int) - 1, some .outOfRange)
      else if neg = true ∧ un > cutoff then (-(cutoff : Int), some .outOfRange)
      else (if neg then -(un : Int) else (un : Int), none)

/-- A field assigned from `strconv.ParseInt(value, 10, 64)`. -/
def intField (key value : String) (assign : Int → GTOPOHeaderInfo) :
    Except GoError GTOPOHeaderInfo :=
  match parseInt value 64 with
  | (v, none) => .ok (assign v)
  | (_, some _) => .error (.parseKey key)

/-- A field assigned from `strconv.ParseFloat(value, 64)`. -/
def floatField (parseFloat : String → Option F64) (key value : String)
    (assign : F64 → GTOPOHeaderInfo) : Except GoError GTOPOHeaderInfo :=
  match parseFloat value with
  | some v => .ok (assign v)
  | none => .error (.parseKey key)

/-- One round of the scanning loop of `readHeaderFile`: the record after the
line, or the error the function returns.  `parseFloat` is
`strconv.ParseFloat(·, 64)`, `none` standing for its error. -/
def applyLine (parseFloat : String → Option F64) (h : GTOPOHeaderInfo) (line : String) :
    Except GoError GTOPOHeaderInfo :=
  match fields line with
  | [key, value] =>
    if key = "BYTEORDER" then
      .ok { h with byteOrder := if value = "M" then 'M' else 'L' }
    else if key = "LAYOUT" then .ok { h with layout := value }
    else if key = "NROWS" then intField key value (fun v => { h with nrows := v })
    else if key = "NCOLS" then intField key value (fun v => { h with ncols := v })
    else if key = "NBANDS" then .ok { h with nbands := wrap32 (parseInt value 32).1 }
    else if key = "NBITS" then intField key value (fun v => { h with nbits := v })
    else if key = "BANDROWBYTES" then
      intField key value (fun v => { h with bandRowBytes := v })
    else if key = "TOTALROWBYTES" then
      intField key value (fun v => { h with totalRowBytes := v })
    else if key = "BANDGAPBYTES" then
      .ok { h with bandGapBytes := wrap32 (parseInt value 32).1 }
    else if key = "NODATA" then intField key value (fun v => { h with nodata := v })
    else if key = "ULXMAP" then
      floatField parseFloat key value (fun v => { h with ulxmap := v })
    else if key = "ULYMAP" then
      floatField parseFloat key value (fun v => { h with ulymap := v })
    else if key = "XDIM" then floatField parseFloat key value (fun v => { h with xdim := v })
    else if key = "YDIM" then floatField parseFloat key value (fun v => { h with ydim := v })
    else .ok h
  | _ => .ok h

/-- The scanning loop of `readHeaderFile` over the lines still to come. -/
def scanLines (parseFloat : String → Option F64) :
    List String → GTOPOHeaderInfo → Except GoError GTOPOHeaderInfo
  | [], h => .ok h
  | line :: rest, h =>
    match applyLine parseFloat h line with
    | .error e => .error e
    | .ok h' => scanLines parseFloat rest h'

/-- A header file as the scanner delivers it: the lines it yields, and whether
`scanner.Err()` is non-nil once they are exhausted. -/
structure HdrFile where
  lines : List String
  scanErr : Bool
deriving DecidableEq, Repr

/-- The function `readHeaderFile`; `file` is `none` when the header cannot be
opened.  The Go function returns `(nil, err)` or `(headerInfo, nil)`. -/
def readHeaderFile (parseFloat : String → Option F64) (file : Option HdrFile) :
    Except GoError GTOPOHeaderInfo :=
  match file with
  | none => .error .openFailed
  | some f =>
    match scanLines parseFloat f.lines GTOPOHeaderInfo.zero with
    | .error e => .error e
    | .ok h => if f.scanErr then .error .scanFailed else .ok h

/-! ## Top-level query -/

/-- The files below the base directory, by path. -/
structure FileSystem where
  hdr : String → Option HdrFile
  dem : String → Option (List Byte)

def GetGTOPOElevation (arch : Arch) (parseFloat : String → Option F64) (fs : FileSystem)
    (lat : F64) (lon : F64) (baseFilePath : String) : Outcome Int :=
  match getFileName lat lon with
  | (_, some err) => .ret (-9999) (some (.fileNamePhase err))
  | (fileName, none) =>
    match readHeaderFile parseFloat (fs.hdr (baseFilePath ++ "/" ++ fileName ++ ".HDR")) with
    | .error err => .ret (-9999) (some (.headerPhase err))
    | .ok headerInfo =>
      let DEMFilepath := baseFilePath ++ "/" ++ fileName ++ ".DEM"
      match getElevation arch (fs.dem DEMFilepath) headerInfo.nrows headerInfo.ncols lat lon
          headerInfo.ulxmap headerInfo.ulymap headerInfo.xdim headerInfo.ydim with
      | .panic => .panic
      | .ret _ (some err) => .ret (-9999) (some (.elevationPhase err))
      | .ret elevation none => .ret elevation none

/-! ## Definitions that follow the specification -/

/-- The nine 40-degree longitude prefixes. -/
def lonPrefixes : List String :=
  ["W180", "W140", "W100", "W060", "W020", "E020", "E060", "E100", "E140"]

/-- The six 60-degree longitude prefixes of the polar band. -/
def polarPrefixes : List String :=
  ["W180", "W120", "W060", "W000", "E060", "E120"]

/-- The six tile ids of the polar band. -/
def polarIds : List String :=
  ["W180S60", "W120S60", "W060S60", "W000S60", "E060S60", "E120S60"]

/-- The 33 known tile ids: a 40-degree prefix followed by N90, N40 or S10, and
the six polar ids. -/
def tileIds : List String :=
  (lonPrefixes.map (fun p => ["N90", "N40", "S10"].map (fun s => p ++ s))).flatten ++ polarIds

/-- The valid geographic domain: `-90 ≤ lat ≤ 90` and `-180 ≤ lon ≤ 180`. -/
def inDomain (lat lon : F64) : Prop :=
  F64.le (.fin (-90)) lat = true ∧ F64.le lat (.fin 90) = true ∧
    F64.le (.fin (-180)) lon = true ∧ F64.le lon (.fin 180) = true

/-- The specification's membership of `lon` in the slice `r`: `min ≤ lon < max`,
the easternmost slice being closed at its upper bound. -/
def inHalfOpenSlice (lon : F64) (r : LonRange) : Bool :=
  F64.le r.min lon && (F64.lt lon r.max || (r.label == "E140" && F64.le lon r.max))

/-- The floor of a float64, when it is finite. -/
def floorF64 : F64 → Option Int
  | .fin q => some (Int.floor q)
  | _ => none

/-- The specification's `row = floor((ulymap - lat) / ydim)`, on the float64
quotient the sampler computes. -/
def specRow (lat ulymap ydim : F64) : Option Int :=
  floorF64 (F64.div (F64.sub ulymap lat) ydim)

/-- The specification's `col = floor((lon - ulxmap) / xdim)`, on the float64
quotient the sampler computes. -/
def specCol (lon ulxmap xdim : F64) : Option Int :=
  floorF64 (F64.div (F64.sub lon ulxmap) xdim)

/-- The keys whose value `readHeaderFile` parses with `ParseInt(value, 10, 64)`
and whose error it returns. -/
def checkedIntKeys : List String :=
  ["NROWS", "NCOLS", "NBITS", "BANDROWBYTES", "TOTALROWBYTES", "NODATA"]

/-- The keys whose value `readHeaderFile` parses with `ParseFloat(value, 64)`. -/
def floatKeys : List String := ["ULXMAP", "ULYMAP", "XDIM", "YDIM"]

/-- The two keys whose value `readHeaderFile` parses with
`ParseInt(value, 10, 32)`, dropping the error. -/
def uncheckedKeys : List String := ["NBANDS", "BANDGAPBYTES"]

/-- The fourteen keys that `readHeaderFile` recognizes. -/
def recognizedKeys : List String :=
  ["BYTEORDER", "LAYOUT", "NROWS", "NCOLS", "NBANDS", "NBITS", "BANDROWBYTES",
    "TOTALROWBYTES", "BANDGAPBYTES", "NODATA", "ULXMAP", "ULYMAP", "XDIM", "YDIM"]

/-- A line the specification calls skipped: blank, with a number of fields other
than two, or with two fields and an unrecognized key. -/
def skippedLine (line : String) : Bool :=
  match fields line with
  | [key, _] => !(recognizedKeys.contains key)
  | _ => true

/-- The value a line carries for `key`: the second field of a two-field line
whose first field is `key`. -/
def valueFor (key : String) (line : String) : Option String :=
  match fields line with
  | [k, v] => if k = key then some v else none
  | _ => none

/-- The value of the last two-field line that carries `key`. -/
def lastValue (lines : List String) (key : String) : Option String :=
  (lines.filterMap (valueFor key)).getLast?

/-- The values of the recognized numeric keys on a line are well-formed numbers
of the key's type. -/
def wellFormedLine (parseFloat : String → Option F64) (line : String) : Prop :=
  match fields line with
  | [key, value] =>
    (key ∈ checkedIntKeys → (parseInt value 64).2 = none) ∧
    (key ∈ uncheckedKeys → (parseInt value 32).2 = none) ∧
    (key ∈ floatKeys → parseFloat value ≠ none)
  | _ => True

instance (parseFloat : String → Option F64) (line : String) :
    Decidable (wellFormedLine parseFloat line) := by
  unfold wellFormedLine
  split <;> infer_instance

/-- The record the specification describes for the lines of a header: each
field is the parsed value of the last line that carries its key, or its zero
value when no line does. -/
def specHeader (parseFloat : String → Option F64) (lines : List String) : GTOPOHeaderInfo where
  byteOrder :=
    match lastValue lines "BYTEORDER" with
    | some v => if v = "M" then 'M' else 'L'
    | none => Char.ofNat 0
  layout :=
    match lastValue lines "LAYOUT" with
    | some v => v
    | none => ""
  nrows :=
    match lastValue lines "NROWS" with
    | some v => (parseInt v 64).1
    | none => 0
  ncols :=
    match lastValue lines "NCOLS" with
    | some v => (parseInt v 64).1
    | none => 0
  nbands :=
    match lastValue lines "NBANDS" with
    | some v => (parseInt v 32).1
    | none => 0
  nbits :=
    match lastValue lines "NBITS" with
    | some v => (parseInt v 64).1
    | none => 0
  bandRowBytes :=
    match lastValue lines "BANDROWBYTES" with
    | some v => (parseInt v 64).1
    | none => 0
  totalRowBytes :=
    match lastValue lines "TOTALROWBYTES" with
    | some v => (parseInt v 64).1
    | none => 0
  bandGapBytes :=
    match lastValue lines "BANDGAPBYTES" with
    | some v => (parseInt v 32).1
    | none => 0
  nodata :=
    match lastValue lines "NODATA" with
    | some v => (parseInt v 64).1
    | none => 0
  ulxmap :=
    match lastValue lines "ULXMAP" with
    | some v => (parseFloat v).getD (.fin 0)
    | none => .fin 0
  ulymap :=
    match lastValue lines "ULYMAP" with
    | some v => (parseFloat v).getD (.fin 0)
    | none => .fin 0
  xdim :=
    match lastValue lines "XDIM" with
    | some v => (parseFloat v).getD (.fin 0)
    | none => .fin 0
  ydim :=
    match lastValue lines "YDIM" with
    | some v => (parseFloat v).getD (.fin 0)
    | none => .fin 0

/-- The record after one line that is read without error: every field is
assigned from the line's value when the line carries the field's key, and kept
otherwise. -/
def stepRecord (pf : String → Option F64) (h : GTOPOHeaderInfo) (line : String) :
    GTOPOHeaderInfo where
  byteOrder :=
    match valueFor "BYTEORDER" line with
    | some v => if v = "M" then 'M' else 'L'
    | none => h.byteOrder
  layout :=
    match valueFor "LAYOUT" line with
    | some v => v
    | none => h.layout
  nrows :=
    match valueFor "NROWS" line with
    | some v => (parseInt v 64).1
    | none => h.nrows
  ncols :=
    match valueFor "NCOLS" line with
    | some v => (parseInt v 64).1
    | none => h.ncols
  nbands :=
    match valueFor "NBANDS" line with
    | some v => wrap32 (parseInt v 32).1
    | none => h.nbands
  nbits :=
    match valueFor "NBITS" line with
    | some v => (parseInt v 64).1
    | none => h.nbits
  bandRowBytes :=
    match valueFor "BANDROWBYTES" line with
    | some v => (parseInt v 64).1
    | none => h.bandRowBytes
  totalRowBytes :=
    match valueFor "TOTALROWBYTES" line with
    | some v => (parseInt v 64).1
    | none => h.totalRowBytes
  bandGapBytes :=
    match valueFor "BANDGAPBYTES" line with
    | some v => wrap32 (parseInt v 32).1
    | none => h.bandGapBytes
  nodata :=
    match valueFor "NODATA" line with
    | some v => (parseInt v 64).1
    | none => h.nodata
  ulxmap :=
    match valueFor "ULXMAP" line with
    | some v => (pf v).getD (.fin 0)
    | none => h.ulxmap
  ulymap :=
    match valueFor "ULYMAP" line with
    | some v => (pf v).getD (.fin 0)
    | none => h.ulymap
  xdim :=
    match valueFor "XDIM" line with
    | some v => (pf v).getD (.fin 0)
    | none => h.xdim
  ydim :=
    match valueFor "YDIM" line with
    | some v => (pf v).getD (.fin 0)
    | none => h.ydim

/-- The six 60-degree slices of the band S60, with the bounds of the `switch`
of `getFileName`. -/
def polarRanges : List LonRange :=
  [ ⟨.fin (-180), .fin (-120), "W180"⟩,
    ⟨.fin (-120), .fin (-60), "W120"⟩,
    ⟨.fin (-60), .fin 0, "W060"⟩,
    ⟨.fin 0, .fin 60, "W000"⟩,
    ⟨.fin 60, .fin 120, "E060"⟩,
    ⟨.fin 120, .fin 180, "E120"⟩ ]

/-- A tile id with the longitude slice its prefix names and the latitude band
its suffix names. -/
structure NominalTile where
  id : String
  lon : LonRange
  lat : LatRange
deriving DecidableEq, Repr

/-- The nominal rectangle of every tile: a 40-degree slice of `lonRanges` with
one of the bands N90, N40, S10, or a 60-degree slice with the band S60. -/
def nominalTiles : List NominalTile :=
  ((latRanges.take 3).map
      (fun lr => lonRanges.map (fun r => (⟨r.label ++ lr.label, r, lr⟩ : NominalTile)))).flatten
    ++ polarRanges.map
      (fun r => (⟨r.label ++ "S60", r, ⟨.fin (-90), .fin (-60), "S60"⟩⟩ : NominalTile))

/-- A stand-in for `strconv.ParseFloat` that knows the values 0 and 1. -/
def parseFloatSample (s : String) : Option F64 :=
  if s = "0" then some (.fin 0) else if s = "1" then some (.fin 1) else none

/-- The constant `bufio.MaxScanTokenSize`, the size of the scanner's buffer. -/
def maxScanTokenSize : Nat := 64 * 1024

/-- The pieces of a text between line feeds, as `bufio.ScanLines` cuts them;
`cur` holds the piece being read, reversed.  An empty piece after the last
line feed is no line. -/
def rawLines : List Char → List Char → List (List Char)
  | [], cur => if cur.isEmpty then [] else [cur.reverse]
  | c :: cs, cur =>
    if c = '\n' then cur.reverse :: rawLines cs [] else rawLines cs (c :: cur)

/-- The function `dropCR` of `bufio`: one trailing carriage return is removed. -/
def dropCR (l : List Char) : List Char :=
  if l.getLast? = some '\r' then l.dropLast else l

/-- The number of bytes of the UTF-8 encoding. -/
def byteLen (l : List Char) : Nat := (l.map Char.utf8Size).sum

/-- What `bufio.NewScanner(file)` delivers for the pieces of a file that is
read without an input error: the lines before the first piece that does not
fit the buffer with its line feed, where `Scan` stops with `ErrTooLong`. -/
def deliver : List (List Char) → HdrFile
  | [] => ⟨[], false⟩
  | l :: rest =>
    if maxScanTokenSize ≤ byteLen l then ⟨[], true⟩
    else ⟨String.mk (dropCR l) :: (deliver rest).lines, (deliver rest).scanErr⟩

/-- The header file with the content `text`, as the scanner delivers it. -/
def scanText (text : String) : HdrFile := deliver (rawLines text.toList [])

/-- The lines of a text: its pieces between line feeds, without the carriage
return of a line that ends in one. -/
def textLines (text : String) : List String :=
  (rawLines text.toList []).map (fun l => String.mk (dropCR l))

/-! ## Tile locator: the two loops and the switch on finite arguments -/

theorem find?_cons_if {α : Type} (p : α → Bool) (a : α) (l : List α) :
    (a :: l).find? p = if p a = true then some a else l.find? p := by
  rw [List.find?_cons]
  cases p a <;> rfl

theorem latLabelOf_fin (a : ℚ) :
    latLabelOf (.fin a) =
      if 40 ≤ a ∧ a ≤ 90 then "N90"
      else if -10 ≤ a ∧ a ≤ 40 then "N40"
      else if -60 ≤ a ∧ a ≤ -10 then "S10"
      else if -90 ≤ a ∧ a ≤ -60 then "S60"
      else "" := by
  unfold latLabelOf latRanges
  simp only [find?_cons_if, List.find?_nil, F64.ge, F64.le, Bool.and_eq_true, decide_eq_true_eq]
  split_ifs <;> rfl

theorem lonLabelOf_fin (b : ℚ) :
    lonLabelOf (.fin b) =
      if -180 ≤ b ∧ b ≤ -140 then "W180"
      else if -140 ≤ b ∧ b ≤ -100 then "W140"
      else if -100 ≤ b ∧ b ≤ -60 then "W100"
      else if -60 ≤ b ∧ b ≤ -20 then "W060"
      else if -20 ≤ b ∧ b ≤ 20 then "W020"
      else if 20 ≤ b ∧ b ≤ 60 then "E020"
      else if 60 ≤ b ∧ b ≤ 100 then "E060"
      else if 100 ≤ b ∧ b ≤ 140 then "E100"
      else if 140 ≤ b ∧ b ≤ 180 then "E140"
      else "" := by
  unfold lonLabelOf lonRanges
  simp only [find?_cons_if, List.find?_nil, F64.ge, F64.le, Bool.and_eq_true, decide_eq_true_eq]
  split_ifs <;> rfl

theorem polarSwitch_fin (b : ℚ) :
    polarSwitch (.fin b) =
      if -180 ≤ b ∧ b < -120 then some "W180S60"
      else if -120 ≤ b ∧ b < -60 then some "W120S60"
      else if -60 ≤ b ∧ b < 0 then some "W060S60"
      else if 0 ≤ b ∧ b < 60 then some "W000S60"
      else if 60 ≤ b ∧ b < 120 then some "E060S60"
      else if 120 ≤ b ∧ b ≤ 180 then some "E120S60"
      else none := by
  unfold polarSwitch
  simp only [F64.ge, F64.le, F64.lt, Bool.and_eq_true, decide_eq_true_eq]

theorem between_fin {x : F64} {c d : ℚ} (h : F64.le (.fin c) x = true)
    (hd : F64.le x (.fin d) = true) : ∃ a, x = .fin a ∧ c ≤ a ∧ a ≤ d := by
  cases x with
  | fin a => exact ⟨a, rfl, by simpa [F64.le] using h, by simpa [F64.le] using hd⟩
  | pinf => simp [F64.le] at hd
  | ninf => simp [F64.le] at h
  | nan => simp [F64.le] at h

theorem fin_of_bounds {x : F64} {c d : ℚ} (h : F64.le (.fin c) x = true)
    (hd : F64.lt x (.fin d) = true) : ∃ a, x = .fin a ∧ c ≤ a ∧ a < d := by
  cases x with
  | fin a => exact ⟨a, rfl, by simpa [F64.le] using h, by simpa [F64.lt] using hd⟩
  | pinf => simp [F64.lt] at hd
  | ninf => simp [F64.le] at h
  | nan => simp [F64.le] at h

theorem lt_not_le {x y : F64} (h : F64.lt x y = true) : F64.le y x = false := by
  cases x <;> cases y <;> simp_all [F64.lt, F64.le]

theorem lonLabelOf_cases (b : ℚ) :
    ((-180) ≤ b → b ≤ (-140) → lonLabelOf (.fin b) = "W180") ∧
    ((-140) < b → b ≤ (-100) → lonLabelOf (.fin b) = "W140") ∧
    ((-100) < b → b ≤ (-60) → lonLabelOf (.fin b) = "W100") ∧
    ((-60) < b → b ≤ (-20) → lonLabelOf (.fin b) = "W060") ∧
    ((-20) < b → b ≤ 20 → lonLabelOf (.fin b) = "W020") ∧
    (20 < b → b ≤ 60 → lonLabelOf (.fin b) = "E020") ∧
    (60 < b → b ≤ 100 → lonLabelOf (.fin b) = "E060") ∧
    (100 < b → b ≤ 140 → lonLabelOf (.fin b) = "E100") ∧
    (140 < b → b ≤ 180 → lonLabelOf (.fin b) = "E140") := by
  refine ⟨?_, ?_, ?_, ?_, ?_, ?_, ?_, ?_, ?_⟩ <;> intro h1 h2 <;> rw [lonLabelOf_fin]
  · rw [if_pos ⟨by linarith, by linarith⟩]
  · rw [if_neg (fun h => by linarith [h.1, h.2]), if_pos ⟨by linarith, by linarith⟩]
  · rw [if_neg (fun h => by linarith [h.1, h.2]), if_neg (fun h => by linarith [h.1, h.2]), if_pos ⟨by linarith, by linarith⟩]
  · rw [if_neg (fun h => by linarith [h.1, h.2]), if_neg (fun h => by linarith [h.1, h.2]), if_neg (fun h => by linarith [h.1, h.2]), if_pos ⟨by linarith, by linarith⟩]
  · rw [if_neg (fun h => by linarith [h.1, h.2]), if_neg (fun h => by linarith [h.1, h.2]), if_neg (fun h => by linarith [h.1, h.2]), if_neg (fun h => by linarith [h.1, h.2]), if_pos ⟨by linarith, by linarith⟩]
  · rw [if_neg (fun h => by linarith [h.1, h.2]), if_neg (fun h => by linarith [h.1, h.2]), if_neg (fun h => by linarith [h.1, h.2]), if_neg (fun h => by linarith [h.1, h.2]), if_neg (fun h => by linarith [h.1, h.2]), if_pos ⟨by linarith, by linarith⟩]
  · rw [if_neg (fun h => by linarith [h.1, h.2]), if_neg (fun h => by linarith [h.1, h.2]), if_neg (fun h => by linarith [h.1, h.2]), if_neg (fun h => by linarith [h.1, h.2]), if_neg (fun h => by linarith [h.1, h.2]), if_neg (fun h => by linarith [h.1, h.2]), if_pos ⟨by linarith, by linarith⟩]
  · rw [if_neg (fun h => by linarith [h.1, h.2]), if_neg (fun h => by linarith [h.1, h.2]), if_neg (fun h => by linarith [h.1, h.2]), if_neg (fun h => by linarith [h.1, h.2]), if_neg (fun h => by linarith [h.1, h.2]), if_neg (fun h => by linarith [h.1, h.2]), if_neg (fun h => by linarith [h.1, h.2]), if_pos ⟨by linarith, by linarith⟩]
  · rw [if_neg (fun h => by linarith [h.1, h.2]), if_neg (fun h => by linarith [h.1, h.2]), if_neg (fun h => by linarith [h.1, h.2]), if_neg (fun h => by linarith [h.1, h.2]), if_neg (fun h => by linarith [h.1, h.2]), if_neg (fun h => by linarith [h.1, h.2]), if_neg (fun h => by linarith [h.1, h.2]), if_neg (fun h => by linarith [h.1, h.2]), if_pos ⟨by linarith, by linarith⟩]

theorem latLabelOf_cases (a : ℚ) :
    (40 ≤ a → a ≤ 90 → latLabelOf (.fin a) = "N90") ∧
    ((-10) ≤ a → a < 40 → latLabelOf (.fin a) = "N40") ∧
    ((-60) ≤ a → a < (-10) → latLabelOf (.fin a) = "S10") ∧
    ((-90) ≤ a → a < (-60) → latLabelOf (.fin a) = "S60") := by
  refine ⟨?_, ?_, ?_, ?_⟩ <;> intro h1 h2 <;> rw [latLabelOf_fin]
  · rw [if_pos ⟨by linarith, by linarith⟩]
  · rw [if_neg (fun h => by linarith [h.1, h.2]), if_pos ⟨by linarith, by linarith⟩]
  · rw [if_neg (fun h => by linarith [h.1, h.2]), if_neg (fun h => by linarith [h.1, h.2]), if_pos ⟨by linarith, by linarith⟩]
  · rw [if_neg (fun h => by linarith [h.1, h.2]), if_neg (fun h => by linarith [h.1, h.2]), if_neg (fun h => by linarith [h.1, h.2]), if_pos ⟨by linarith, by linarith⟩]

theorem polarSwitch_cases (b : ℚ) :
    ((-180) ≤ b → b < (-120) → polarSwitch (.fin b) = some "W180S60") ∧
    ((-120) ≤ b → b < (-60) → polarSwitch (.fin b) = some "W120S60") ∧
    ((-60) ≤ b → b < 0 → polarSwitch (.fin b) = some "W060S60") ∧
    (0 ≤ b → b < 60 → polarSwitch (.fin b) = some "W000S60") ∧
    (60 ≤ b → b < 120 → polarSwitch (.fin b) = some "E060S60") ∧
    (120 ≤ b → b ≤ 180 → polarSwitch (.fin b) = some "E120S60") := by
  refine ⟨?_, ?_, ?_, ?_, ?_, ?_⟩ <;> intro h1 h2 <;> rw [polarSwitch_fin]
  · rw [if_pos ⟨by linarith, by linarith⟩]
  · rw [if_neg (fun h => by linarith [h.1, h.2]), if_pos ⟨by linarith, by linarith⟩]
  · rw [if_neg (fun h => by linarith [h.1, h.2]), if_neg (fun h => by linarith [h.1, h.2]), if_pos ⟨by linarith, by linarith⟩]
  · rw [if_neg (fun h => by linarith [h.1, h.2]), if_neg (fun h => by linarith [h.1, h.2]), if_neg (fun h => by linarith [h.1, h.2]), if_pos ⟨by linarith, by linarith⟩]
  · rw [if_neg (fun h => by linarith [h.1, h.2]), if_neg (fun h => by linarith [h.1, h.2]), if_neg (fun h => by linarith [h.1, h.2]), if_neg (fun h => by linarith [h.1, h.2]), if_pos ⟨by linarith, by linarith⟩]
  · rw [if_neg (fun h => by linarith [h.1, h.2]), if_neg (fun h => by linarith [h.1, h.2]), if_neg (fun h => by linarith [h.1, h.2]), if_neg (fun h => by linarith [h.1, h.2]), if_neg (fun h => by linarith [h.1, h.2]), if_pos ⟨by linarith, by linarith⟩]

theorem latLabelOf_mem (lat : F64) (h1 : F64.le (.fin (-90)) lat = true)
    (h2 : F64.le lat (.fin 90) = true) : latLabelOf lat ∈ ["N90", "N40", "S10", "S60"] := by
  obtain ⟨a, rfl, ha1, ha2⟩ := between_fin h1 h2
  obtain ⟨c1, c2, c3, c4⟩ := latLabelOf_cases a
  by_cases k1 : 40 ≤ a
  · rw [c1 k1 ha2]; decide
  · by_cases k2 : -10 ≤ a
    · rw [c2 k2 (not_le.1 k1)]; decide
    · by_cases k3 : -60 ≤ a
      · rw [c3 k3 (not_le.1 k2)]; decide
      · rw [c4 ha1 (not_le.1 k3)]; decide

theorem latLabelOf_north {lat : F64} (h1 : F64.le (.fin (-60)) lat = true)
    (h2 : F64.le lat (.fin 90) = true) : latLabelOf lat ∈ ["N90", "N40", "S10"] := by
  obtain ⟨a, rfl, ha1, ha2⟩ := between_fin h1 h2
  obtain ⟨c1, c2, c3, -⟩ := latLabelOf_cases a
  by_cases k1 : 40 ≤ a
  · rw [c1 k1 ha2]; decide
  · by_cases k2 : -10 ≤ a
    · rw [c2 k2 (not_le.1 k1)]; decide
    · rw [c3 ha1 (not_le.1 k2)]; decide

theorem lonLabelOf_mem (lon : F64) (h3 : F64.le (.fin (-180)) lon = true)
    (h4 : F64.le lon (.fin 180) = true) : lonLabelOf lon ∈ lonPrefixes := by
  obtain ⟨b, rfl, hb1, hb2⟩ := between_fin h3 h4
  obtain ⟨c1, c2, c3, c4, c5, c6, c7, c8, c9⟩ := lonLabelOf_cases b
  by_cases k1 : b ≤ -140
  · rw [c1 hb1 k1]; decide
  by_cases k2 : b ≤ -100
  · rw [c2 (not_le.1 k1) k2]; decide
  by_cases k3 : b ≤ -60
  · rw [c3 (not_le.1 k2) k3]; decide
  by_cases k4 : b ≤ -20
  · rw [c4 (not_le.1 k3) k4]; decide
  by_cases k5 : b ≤ 20
  · rw [c5 (not_le.1 k4) k5]; decide
  by_cases k6 : b ≤ 60
  · rw [c6 (not_le.1 k5) k6]; decide
  by_cases k7 : b ≤ 100
  · rw [c7 (not_le.1 k6) k7]; decide
  by_cases k8 : b ≤ 140
  · rw [c8 (not_le.1 k7) k8]; decide
  · rw [c9 (not_le.1 k8) hb2]; decide

theorem polarSwitch_mem (lon : F64) (h3 : F64.le (.fin (-180)) lon = true)
    (h4 : F64.le lon (.fin 180) = true) : ∃ p, p ∈ polarIds ∧ polarSwitch lon = some p := by
  obtain ⟨b, rfl, hb1, hb2⟩ := between_fin h3 h4
  obtain ⟨c1, c2, c3, c4, c5, c6⟩ := polarSwitch_cases b
  by_cases k1 : b < -120
  · exact ⟨_, by decide, c1 hb1 k1⟩
  by_cases k2 : b < -60
  · exact ⟨_, by decide, c2 (not_lt.1 k1) k2⟩
  by_cases k3 : b < 0
  · exact ⟨_, by decide, c3 (not_lt.1 k2) k3⟩
  by_cases k4 : b < 60
  · exact ⟨_, by decide, c4 (not_lt.1 k3) k4⟩
  by_cases k5 : b < 120
  · exact ⟨_, by decide, c5 (not_lt.1 k4) k5⟩
  · exact ⟨_, by decide, c6 (not_lt.1 k5) hb2⟩

theorem latLabelOf_outside {lat : F64}
    (h : ¬(F64.le (.fin (-90)) lat = true ∧ F64.le lat (.fin 90) = true)) :
    latLabelOf lat = "" := by
  cases lat with
  | fin a =>
    simp only [F64.le, decide_eq_true_eq] at h
    rw [latLabelOf_fin, if_neg (fun c => h ⟨by linarith [c.1], c.2⟩),
      if_neg (fun c => h ⟨by linarith [c.1], by linarith [c.2]⟩),
      if_neg (fun c => h ⟨by linarith [c.1], by linarith [c.2]⟩),
      if_neg (fun c => h ⟨c.1, by linarith [c.2]⟩)]
  | pinf => decide
  | ninf => decide
  | nan => decide

theorem lonLabelOf_outside {lon : F64}
    (h : ¬(F64.le (.fin (-180)) lon = true ∧ F64.le lon (.fin 180) = true)) :
    lonLabelOf lon = "" ∧ polarSwitch lon = none := by
  cases lon with
  | fin b =>
    simp only [F64.le, decide_eq_true_eq] at h
    constructor
    · rw [lonLabelOf_fin, if_neg (fun c => h ⟨by linarith [c.1], by linarith [c.2]⟩),
        if_neg (fun c => h ⟨by linarith [c.1], by linarith [c.2]⟩),
        if_neg (fun c => h ⟨by linarith [c.1], by linarith [c.2]⟩),
        if_neg (fun c => h ⟨by linarith [c.1], by linarith [c.2]⟩),
        if_neg (fun c => h ⟨by linarith [c.1], by linarith [c.2]⟩),
        if_neg (fun c => h ⟨by linarith [c.1], by linarith [c.2]⟩),
        if_neg (fun c => h ⟨by linarith [c.1], by linarith [c.2]⟩),
        if_neg (fun c => h ⟨by linarith [c.1], by linarith [c.2]⟩),
        if_neg (fun c => h ⟨by linarith [c.1], by linarith [c.2]⟩)]
    · rw [polarSwitch_fin, if_neg (fun c => h ⟨by linarith [c.1], by linarith [c.2]⟩),
        if_neg (fun c => h ⟨by linarith [c.1], by linarith [c.2]⟩),
        if_neg (fun c => h ⟨by linarith [c.1], by linarith [c.2]⟩),
        if_neg (fun c => h ⟨by linarith [c.1], by linarith [c.2]⟩),
        if_neg (fun c => h ⟨by linarith [c.1], by linarith [c.2]⟩),
        if_neg (fun c => h ⟨by linarith [c.1], by linarith [c.2]⟩)]
  | pinf => decide
  | ninf => decide
  | nan => decide

theorem mem_tileIds_of_parts {p s : String} (hp : p ∈ lonPrefixes)
    (hs : s ∈ ["N90", "N40", "S10"]) : p ++ s ∈ tileIds :=
  List.mem_append_left _
    (List.mem_flatten.2 ⟨_, List.mem_map.2 ⟨p, hp, rfl⟩, List.mem_map.2 ⟨s, hs, rfl⟩⟩)

theorem ne_empty_of_mem_lonPrefixes {p : String} (hp : p ∈ lonPrefixes) : p ≠ "" := by
  rintro rfl
  revert hp
  decide

theorem getFileName_nonpolar {lat lon : F64} (hs : latLabelOf lat ∈ ["N90", "N40", "S10"])
    (hp : lonLabelOf lon ∈ lonPrefixes) :
    getFileName lat lon = (lonLabelOf lon ++ latLabelOf lat, none) := by
  have hS : latLabelOf lat ≠ "S60" := by
    intro h0; rw [h0] at hs; revert hs; decide
  have hne : latLabelOf lat ≠ "" := by
    intro h0; rw [h0] at hs; revert hs; decide
  unfold getFileName
  simp only [hS, if_false, hne, ne_empty_of_mem_lonPrefixes hp, ne_eq, not_false_eq_true,
    and_self, if_true]

theorem getFileName_polar {lat lon : F64} {p : String} (hS : latLabelOf lat = "S60")
    (hp : polarSwitch lon = some p) : getFileName lat lon = (p, none) := by
  unfold getFileName
  simp only [hS, hp, if_true]

theorem getFileName_outside {lat lon : F64} (h : ¬ inDomain lat lon) :
    getFileName lat lon = ("", some .noFileName) := by
  unfold getFileName
  by_cases hlat : F64.le (.fin (-90)) lat = true ∧ F64.le lat (.fin 90) = true
  · have hlon : ¬(F64.le (.fin (-180)) lon = true ∧ F64.le lon (.fin 180) = true) :=
      fun c => h ⟨hlat.1, hlat.2, c.1, c.2⟩
    obtain ⟨e1, e2⟩ := lonLabelOf_outside hlon
    simp only [e1, e2, ite_self, ne_eq, not_true_eq_false, and_false, if_false]
  · have e := latLabelOf_outside hlat
    simp [e]

theorem getFileName_inside {lat lon : F64} (h : inDomain lat lon) :
    ∃ id, id ∈ tileIds ∧ getFileName lat lon = (id, none) := by
  obtain ⟨h1, h2, h3, h4⟩ := h
  have hlat := latLabelOf_mem lat h1 h2
  have hlon := lonLabelOf_mem lon h3 h4
  by_cases hS : latLabelOf lat = "S60"
  · obtain ⟨p, hp, he⟩ := polarSwitch_mem lon h3 h4
    exact ⟨p, List.mem_append_right _ hp, getFileName_polar hS he⟩
  · have hs : latLabelOf lat ∈ ["N90", "N40", "S10"] := by
      simp only [List.mem_cons, List.mem_singleton, List.not_mem_nil, or_false] at hlat ⊢
      tauto
    exact ⟨_, mem_tileIds_of_parts hlon hs, getFileName_nonpolar hs hlon⟩

/-! ## Tile locator: claims -/

/-- Claim C1: for every latitude in [-90, 90] and longitude in [-180, 180],
`getFileName` returns no error and one of the 33 known tile ids (the list
`tileIds` has 33 distinct entries). -/
theorem getFileName_total (lat lon : F64)
    (h1 : F64.le (.fin (-90)) lat = true) (h2 : F64.le lat (.fin 90) = true)
    (h3 : F64.le (.fin (-180)) lon = true) (h4 : F64.le lon (.fin 180) = true) :
    (tileIds.length = 33 ∧ tileIds.Nodup) ∧
      ∃ id, id ∈ tileIds ∧ getFileName lat lon = (id, none) :=
  ⟨⟨by decide, by decide⟩, getFileName_inside ⟨h1, h2, h3, h4⟩⟩

theorem getFileName_total_witness :
    (tileIds.length = 33 ∧ tileIds.Nodup) ∧
      ∃ id, id ∈ tileIds ∧ getFileName (.fin 0) (.fin 0) = (id, none) :=
  getFileName_total (.fin 0) (.fin 0) (by decide) (by decide) (by decide) (by decide)

/-- Claim C2 at its failing inputs: the longitudes -140, 20 and -60 lie in the
half-open slices W140, E020 and W060 of `lonRanges`, and for the latitude 0 the
table loop of `getFileName` assigns them to the slices that end there, W180,
W020 and W100.  The switch of the same function is half-open: for the latitude
-75 the longitude -60 is assigned to W060S60, the slice that starts there. -/
theorem lonSlice_boundary_misassigned :
    ((⟨.fin (-140), .fin (-100), "W140"⟩ : LonRange) ∈ lonRanges ∧
        inHalfOpenSlice (.fin (-140)) ⟨.fin (-140), .fin (-100), "W140"⟩ = true ∧
        getFileName (.fin 0) (.fin (-140)) = ("W180N40", none)) ∧
      ((⟨.fin 20, .fin 60, "E020"⟩ : LonRange) ∈ lonRanges ∧
        inHalfOpenSlice (.fin 20) ⟨.fin 20, .fin 60, "E020"⟩ = true ∧
        getFileName (.fin 0) (.fin 20) = ("W020N40", none)) ∧
      ((⟨.fin (-60), .fin (-20), "W060"⟩ : LonRange) ∈ lonRanges ∧
        inHalfOpenSlice (.fin (-60)) ⟨.fin (-60), .fin (-20), "W060"⟩ = true ∧
        getFileName (.fin 0) (.fin (-60)) = ("W100N40", none) ∧
        getFileName (.fin (-75)) (.fin (-60)) = ("W060S60", none)) := by
  decide

/-- The table loop on longitudes, for every latitude in [-60, 90]: the prefix
is the label of the first slice of `lonRanges` whose closed interval holds
`lon`, that is the slice `r` with `r.min < lon ≤ r.max`, the westernmost slice
W180 being closed at -180 as well.  A longitude on an interior boundary goes to
the slice that ends there. -/
theorem lonPrefix_first_closed_slice (lat lon : F64) (r : LonRange)
    (hlat1 : F64.le (.fin (-60)) lat = true) (hlat2 : F64.le lat (.fin 90) = true)
    (hr : r ∈ lonRanges)
    (hmin : F64.lt r.min lon = true ∨ (r.label = "W180" ∧ lon = r.min))
    (hmax : F64.le lon r.max = true) :
    ∃ s, s ∈ ["N90", "N40", "S10"] ∧ getFileName lat lon = (r.label ++ s, none) := by
  have hs := latLabelOf_north hlat1 hlat2
  have key : lonLabelOf lon = r.label := by
    simp only [lonRanges, List.mem_cons, List.mem_singleton, List.not_mem_nil, or_false] at hr
    cases lon with
    | fin b =>
      obtain ⟨c1, c2, c3, c4, c5, c6, c7, c8, c9⟩ := lonLabelOf_cases b
      rcases hr with rfl | rfl | rfl | rfl | rfl | rfl | rfl | rfl | rfl <;>
        simp [F64.lt, F64.le] at hmin hmax
      · exact c1 (by rcases hmin with h | h <;> linarith) hmax
      · exact c2 hmin hmax
      · exact c3 hmin hmax
      · exact c4 hmin hmax
      · exact c5 hmin hmax
      · exact c6 hmin hmax
      · exact c7 hmin hmax
      · exact c8 hmin hmax
      · exact c9 hmin hmax
    | pinf =>
      rcases hr with rfl | rfl | rfl | rfl | rfl | rfl | rfl | rfl | rfl <;>
        simp [F64.le] at hmax
    | ninf =>
      rcases hr with rfl | rfl | rfl | rfl | rfl | rfl | rfl | rfl | rfl <;>
        simp [F64.lt] at hmin
    | nan =>
      rcases hr with rfl | rfl | rfl | rfl | rfl | rfl | rfl | rfl | rfl <;>
        simp [F64.le] at hmax
  have hp : lonLabelOf lon ∈ lonPrefixes := by
    rw [key]
    simp only [lonRanges, List.mem_cons, List.mem_singleton, List.not_mem_nil, or_false] at hr
    rcases hr with rfl | rfl | rfl | rfl | rfl | rfl | rfl | rfl | rfl <;> decide
  exact ⟨latLabelOf lat, hs, by rw [getFileName_nonpolar hs hp, key]⟩

theorem lonPrefix_first_closed_slice_witness :
    (∃ s, s ∈ ["N90", "N40", "S10"] ∧
        getFileName (.fin 0) (.fin (-140)) = ("W180" ++ s, none)) ∧
      (∃ s, s ∈ ["N90", "N40", "S10"] ∧
        getFileName (.fin 0) (.fin (-180)) = ("W180" ++ s, none)) ∧
      (∃ s, s ∈ ["N90", "N40", "S10"] ∧
        getFileName (.fin 0) (.fin 20) = ("W020" ++ s, none)) :=
  ⟨lonPrefix_first_closed_slice (.fin 0) (.fin (-140)) ⟨.fin (-180), .fin (-140), "W180"⟩
      (by decide) (by decide) (by decide) (Or.inl (by decide)) (by decide),
    lonPrefix_first_closed_slice (.fin 0) (.fin (-180)) ⟨.fin (-180), .fin (-140), "W180"⟩
      (by decide) (by decide) (by decide) (Or.inr ⟨rfl, rfl⟩) (by decide),
    lonPrefix_first_closed_slice (.fin 0) (.fin 20) ⟨.fin (-20), .fin 20, "W020"⟩
      (by decide) (by decide) (by decide) (Or.inl (by decide)) (by decide)⟩

/-- Claim C3: for every latitude with -90 ≤ lat < -60, `getFileName` returns
the 60-degree polar tile of the longitude (W180S60 on [-180, -120), W120S60 on
[-120, -60), W060S60 on [-60, 0), W000S60 on [0, 60), E060S60 on [60, 120),
E120S60 on [120, 180]) and never a 40-degree-only prefix followed by S60. -/
theorem polar_band_tiles (lat lon : F64)
    (h1 : F64.le (.fin (-90)) lat = true) (h2 : F64.lt lat (.fin (-60)) = true) :
    (F64.le (.fin (-180)) lon = true → F64.lt lon (.fin (-120)) = true →
        getFileName lat lon = ("W180S60", none)) ∧
      (F64.le (.fin (-120)) lon = true → F64.lt lon (.fin (-60)) = true →
        getFileName lat lon = ("W120S60", none)) ∧
      (F64.le (.fin (-60)) lon = true → F64.lt lon (.fin 0) = true →
        getFileName lat lon = ("W060S60", none)) ∧
      (F64.le (.fin 0) lon = true → F64.lt lon (.fin 60) = true →
        getFileName lat lon = ("W000S60", none)) ∧
      (F64.le (.fin 60) lon = true → F64.lt lon (.fin 120) = true →
        getFileName lat lon = ("E060S60", none)) ∧
      (F64.le (.fin 120) lon = true → F64.le lon (.fin 180) = true →
        getFileName lat lon = ("E120S60", none)) ∧
      (∀ p, p ∈ ["W140", "W100", "W020", "E020", "E100", "E140"] →
        getFileName lat lon ≠ (p ++ "S60", none)) := by
  obtain ⟨a, rfl, ha1, ha2⟩ := fin_of_bounds h1 h2
  have hS : latLabelOf (.fin a) = "S60" := (latLabelOf_cases a).2.2.2 ha1 ha2
  refine ⟨?_, ?_, ?_, ?_, ?_, ?_, ?_⟩
  · intro k1 k2
    obtain ⟨b, rfl, hb1, hb2⟩ := fin_of_bounds k1 k2
    exact getFileName_polar hS ((polarSwitch_cases b).1 hb1 hb2)
  · intro k1 k2
    obtain ⟨b, rfl, hb1, hb2⟩ := fin_of_bounds k1 k2
    exact getFileName_polar hS ((polarSwitch_cases b).2.1 hb1 hb2)
  · intro k1 k2
    obtain ⟨b, rfl, hb1, hb2⟩ := fin_of_bounds k1 k2
    exact getFileName_polar hS ((polarSwitch_cases b).2.2.1 hb1 hb2)
  · intro k1 k2
    obtain ⟨b, rfl, hb1, hb2⟩ := fin_of_bounds k1 k2
    exact getFileName_polar hS ((polarSwitch_cases b).2.2.2.1 hb1 hb2)
  · intro k1 k2
    obtain ⟨b, rfl, hb1, hb2⟩ := fin_of_bounds k1 k2
    exact getFileName_polar hS ((polarSwitch_cases b).2.2.2.2.1 hb1 hb2)
  · intro k1 k2
    obtain ⟨b, rfl, hb1, hb2⟩ := between_fin k1 k2
    exact getFileName_polar hS ((polarSwitch_cases b).2.2.2.2.2 hb1 hb2)
  · intro p hp
    by_cases hd : F64.le (.fin (-180)) lon = true ∧ F64.le lon (.fin 180) = true
    · obtain ⟨q, hq, he⟩ := polarSwitch_mem lon hd.1 hd.2
      rw [getFileName_polar hS he]
      intro hc
      have hq2 : p ++ "S60" ∈ polarIds := by
        have hfst := congrArg Prod.fst hc
        simp only at hfst
        rw [← hfst]
        exact hq
      revert hq2
      simp only [List.mem_cons, List.mem_singleton, List.not_mem_nil, or_false] at hp
      rcases hp with rfl | rfl | rfl | rfl | rfl | rfl <;> decide
    · have hout : ¬ inDomain (.fin a) lon := fun c => hd ⟨c.2.2.1, c.2.2.2⟩
      rw [getFileName_outside hout]
      intro hc
      exact absurd (congrArg Prod.snd hc) (by simp)

theorem polar_band_tiles_witness :
    getFileName (.fin (-75)) (.fin (-150)) = ("W180S60", none) ∧
      getFileName (.fin (-75)) (.fin 30) = ("W000S60", none) :=
  ⟨(polar_band_tiles (.fin (-75)) (.fin (-150)) (by decide) (by decide)).1
      (by decide) (by decide),
    (polar_band_tiles (.fin (-75)) (.fin 30) (by decide) (by decide)).2.2.2.1
      (by decide) (by decide)⟩

/-- Claim C4: for every longitude in [-180, 180], the latitude suffix of the
tile id is N90 for 40 ≤ lat ≤ 90, N40 for -10 ≤ lat < 40, S10 for
-60 ≤ lat < -10 and S60 for -90 ≤ lat < -60; a latitude on a band boundary
(40, -10, -60) gets the more northerly band. -/
theorem latSuffix_bands (lat lon : F64)
    (h3 : F64.le (.fin (-180)) lon = true) (h4 : F64.le lon (.fin 180) = true) :
    (F64.le (.fin 40) lat = true → F64.le lat (.fin 90) = true →
        ∃ p, p ∈ lonPrefixes ∧ getFileName lat lon = (p ++ "N90", none)) ∧
      (F64.le (.fin (-10)) lat = true → F64.lt lat (.fin 40) = true →
        ∃ p, p ∈ lonPrefixes ∧ getFileName lat lon = (p ++ "N40", none)) ∧
      (F64.le (.fin (-60)) lat = true → F64.lt lat (.fin (-10)) = true →
        ∃ p, p ∈ lonPrefixes ∧ getFileName lat lon = (p ++ "S10", none)) ∧
      (F64.le (.fin (-90)) lat = true → F64.lt lat (.fin (-60)) = true →
        ∃ p, p ∈ polarPrefixes ∧ getFileName lat lon = (p ++ "S60", none)) := by
  have hp := lonLabelOf_mem lon h3 h4
  refine ⟨?_, ?_, ?_, ?_⟩
  · intro k1 k2
    obtain ⟨a, rfl, ha1, ha2⟩ := between_fin k1 k2
    have e := (latLabelOf_cases a).1 ha1 ha2
    exact ⟨_, hp, by rw [getFileName_nonpolar (by rw [e]; decide) hp, e]⟩
  · intro k1 k2
    obtain ⟨a, rfl, ha1, ha2⟩ := fin_of_bounds k1 k2
    have e := (latLabelOf_cases a).2.1 ha1 ha2
    exact ⟨_, hp, by rw [getFileName_nonpolar (by rw [e]; decide) hp, e]⟩
  · intro k1 k2
    obtain ⟨a, rfl, ha1, ha2⟩ := fin_of_bounds k1 k2
    have e := (latLabelOf_cases a).2.2.1 ha1 ha2
    exact ⟨_, hp, by rw [getFileName_nonpolar (by rw [e]; decide) hp, e]⟩
  · intro k1 k2
    obtain ⟨a, rfl, ha1, ha2⟩ := fin_of_bounds k1 k2
    have e := (latLabelOf_cases a).2.2.2 ha1 ha2
    obtain ⟨q, hq, he⟩ := polarSwitch_mem lon h3 h4
    rw [getFileName_polar e he]
    simp only [polarIds, List.mem_cons, List.mem_singleton, List.not_mem_nil, or_false] at hq
    rcases hq with rfl | rfl | rfl | rfl | rfl | rfl
    · exact ⟨"W180", by decide, by decide⟩
    · exact ⟨"W120", by decide, by decide⟩
    · exact ⟨"W060", by decide, by decide⟩
    · exact ⟨"W000", by decide, by decide⟩
    · exact ⟨"E060", by decide, by decide⟩
    · exact ⟨"E120", by decide, by decide⟩

theorem latSuffix_bands_witness :
    getFileName (.fin 45) (.fin 10) = ("W020N90", none) ∧
      (∃ p, p ∈ lonPrefixes ∧ getFileName (.fin 45) (.fin 10) = (p ++ "N90", none)) ∧
      (∃ p, p ∈ lonPrefixes ∧ getFileName (.fin 40) (.fin 10) = (p ++ "N90", none)) ∧
      (∃ p, p ∈ lonPrefixes ∧ getFileName (.fin (-10)) (.fin 10) = (p ++ "N40", none)) ∧
      (∃ p, p ∈ lonPrefixes ∧ getFileName (.fin (-60)) (.fin 10) = (p ++ "S10", none)) :=
  ⟨by decide,
    (latSuffix_bands (.fin 45) (.fin 10) (by decide) (by decide)).1 (by decide) (by decide),
    (latSuffix_bands (.fin 40) (.fin 10) (by decide) (by decide)).1 (by decide) (by decide),
    (latSuffix_bands (.fin (-10)) (.fin 10) (by decide) (by decide)).2.1 (by decide) (by decide),
    (latSuffix_bands (.fin (-60)) (.fin 10) (by decide) (by decide)).2.2.1 (by decide)
      (by decide)⟩

/-- Claim C5: `getFileName` returns the empty string and an error exactly when
the input is outside the domain `-90 ≤ lat ≤ 90`, `-180 ≤ lon ≤ 180`, it returns
no error exactly on the domain, and it fails in particular whenever
`lat < -90`, `lat > 90`, `lon < -180` or `lon > 180`. -/
theorem getFileName_fails_iff_outside (lat lon : F64) :
    (getFileName lat lon = ("", some .noFileName) ↔ ¬ inDomain lat lon) ∧
      ((getFileName lat lon).2 = none ↔ inDomain lat lon) ∧
      (F64.lt lat (.fin (-90)) = true ∨ F64.lt (.fin 90) lat = true ∨
          F64.lt lon (.fin (-180)) = true ∨ F64.lt (.fin 180) lon = true →
        getFileName lat lon = ("", some .noFileName)) := by
  have hin : inDomain lat lon → (getFileName lat lon).2 = none := by
    intro h
    obtain ⟨id, -, he⟩ := getFileName_inside h
    rw [he]
  refine ⟨⟨?_, getFileName_outside⟩, ⟨?_, hin⟩, ?_⟩
  · intro he hd
    have h0 := hin hd
    rw [he] at h0
    exact absurd h0 (by simp)
  · intro he
    by_contra hd
    rw [getFileName_outside hd] at he
    exact absurd he (by simp)
  · intro h
    apply getFileName_outside
    intro hd
    rcases h with h | h | h | h
    · have h0 := lt_not_le h; rw [hd.1] at h0; exact absurd h0 (by simp)
    · have h0 := lt_not_le h; rw [hd.2.1] at h0; exact absurd h0 (by simp)
    · have h0 := lt_not_le h; rw [hd.2.2.1] at h0; exact absurd h0 (by simp)
    · have h0 := lt_not_le h; rw [hd.2.2.2] at h0; exact absurd h0 (by simp)

theorem getFileName_fails_iff_outside_witness :
    getFileName (.fin (-75)) (.fin 200) = ("", some .noFileName) ∧
      getFileName (.fin 91) (.fin 0) = ("", some .noFileName) :=
  ⟨(getFileName_fails_iff_outside (.fin (-75)) (.fin 200)).2.2
      (Or.inr (Or.inr (Or.inr (by decide)))),
    (getFileName_fails_iff_outside (.fin 91) (.fin 0)).2.2 (Or.inr (Or.inl (by decide)))⟩

/-! ## Elevation sampler: auxiliary facts -/

theorem wrap64_eq_self {z : Int} (h1 : -(2 ^ 63) ≤ z) (h2 : z < 2 ^ 63) : wrap64 z = z := by
  unfold wrap64
  omega

theorem wrap64_lt (z : Int) : wrap64 z < 2 ^ 63 := by
  unfold wrap64
  omega

theorem decodeInt16s_length (l : List Byte) : (decodeInt16s l).length = l.length / 2 := by
  induction l using decodeInt16s.induct with
  | case1 hi lo rest ih =>
    simp only [decodeInt16s, List.length_cons, ih]
    omega
  | case2 l h =>
    match l, h with
    | [], _ => simp [decodeInt16s]
    | [_], _ => simp [decodeInt16s]
    | hi :: lo :: rest, h => exact absurd rfl (h hi lo rest)

theorem binaryRead_length {bytes : List Byte} {n : Nat} {data : List Int}
    (h : binaryRead bytes n = some data) : data.length = n := by
  unfold binaryRead at h
  split_ifs at h with hlt
  simp only [Option.some.injEq] at h
  rw [← h, decodeInt16s_length, List.length_take]
  omega

theorem loadGrid_loaded {arch : Arch} {file : Option (List Byte)} {nrows ncols : Int}
    {grid : List Int} (h : loadGrid arch file nrows ncols = .loaded grid) :
    0 ≤ wrap64 (nrows * ncols) ∧ (grid.length : Int) = wrap64 (nrows * ncols) := by
  unfold loadGrid at h
  cases file with
  | none => simp at h
  | some bytes =>
    simp only at h
    split_ifs at h with hbad
    have hpos : 0 ≤ wrap64 (nrows * ncols) := by
      by_contra hc
      exact hbad (Or.inl (not_le.1 hc))
    refine ⟨hpos, ?_⟩
    cases hb : binaryRead bytes (wrap64 (nrows * ncols)).toNat with
    | none => rw [hb] at h; simp at h
    | some data =>
      rw [hb] at h
      simp only [Load.loaded.injEq] at h
      rw [← h, binaryRead_length hb]
      exact Int.toNat_of_nonneg hpos

theorem getElevation_of_index {arch : Arch} {file : Option (List Byte)} {nrows ncols : Int}
    {lat lon ulxmap ulymap xdim ydim : F64} {grid : List Int} {i j : Int}
    (hload : loadGrid arch file nrows ncols = .loaded grid)
    (hlen : (grid.length : Int) = nrows * ncols)
    (hidx : pixelIndex arch lat lon ulxmap ulymap xdim ydim = (i, j))
    (hi0 : 0 ≤ i) (hi1 : i < nrows) (hj0 : 0 ≤ j) (hj1 : j < ncols) :
    ∃ v, grid[(i * ncols + j).toNat]? = some v ∧
      getElevation arch file nrows ncols lat lon ulxmap ulymap xdim ydim = .ret v none := by
  obtain ⟨-, hw⟩ := loadGrid_loaded hload
  have hsize : nrows * ncols < 2 ^ 63 := by
    have := wrap64_lt (nrows * ncols)
    rw [← hw, hlen] at this
    exact this
  have hmul0 : 0 ≤ i * ncols := mul_nonneg hi0 (by omega)
  have hk1 : i * ncols + j < nrows * ncols := by
    have : (i + 1) * ncols ≤ nrows * ncols :=
      mul_le_mul_of_nonneg_right (by omega) (by omega)
    have e : (i + 1) * ncols = i * ncols + ncols := by ring
    omega
  have hk : wrap64 (wrap64 (i * ncols) + j) = i * ncols + j := by
    rw [@wrap64_eq_self (i * ncols) (by omega) (by omega)]
    exact wrap64_eq_self (by omega) (by omega)
  have hlt : (i * ncols + j).toNat < grid.length := by
    have : ((i * ncols + j).toNat : Int) < (grid.length : Int) := by
      rw [Int.toNat_of_nonneg (by omega), hlen]; exact hk1
    exact_mod_cast this
  refine ⟨grid[(i * ncols + j).toNat], List.getElem?_eq_getElem hlt, ?_⟩
  unfold getElevation
  simp only [hload, hidx, hk]
  rw [if_pos ⟨hi0, hi1, hj0, hj1⟩, if_neg (by omega), List.getElem?_eq_getElem hlt]

theorem floorF64_eq_some {x : F64} {z : Int} (h : floorF64 x = some z) :
    ∃ q, x = .fin q ∧ Int.floor q = z := by
  cases x with
  | fin q => exact ⟨q, rfl, by simpa [floorF64] using h⟩
  | pinf => simp [floorF64] at h
  | ninf => simp [floorF64] at h
  | nan => simp [floorF64] at h

theorem truncQ_of_nonneg {q : ℚ} (h : 0 ≤ q) : truncQ q = Int.floor q := by
  unfold truncQ
  rw [if_pos h]

theorem toInt_of_floor {arch : Arch} {q : ℚ} {z : Int} (hf : Int.floor q = z) (h0 : 0 ≤ z)
    (h1 : z < 2 ^ 63) : toInt arch (.fin q) = z := by
  have hq : 0 ≤ q := by
    have := Int.floor_nonneg.1 (hf ▸ h0 : 0 ≤ Int.floor q)
    exact this
  unfold toInt
  simp only [truncQ_of_nonneg hq, hf]
  rw [if_pos ⟨by omega, h1⟩]

theorem nrows_lt_of_loaded {arch : Arch} {file : Option (List Byte)} {nrows ncols : Int}
    {grid : List Int} (hload : loadGrid arch file nrows ncols = .loaded grid)
    (hlen : (grid.length : Int) = nrows * ncols) (hr : 0 < nrows) (hc : 0 < ncols) :
    nrows < 2 ^ 63 ∧ ncols < 2 ^ 63 := by
  obtain ⟨-, hw⟩ := loadGrid_loaded hload
  have hsize : nrows * ncols < 2 ^ 63 := by
    have := wrap64_lt (nrows * ncols)
    rw [← hw, hlen] at this
    exact this
  have h1 : nrows ≤ nrows * ncols := le_mul_of_one_le_right (by omega) (by omega)
  have h2 : ncols ≤ nrows * ncols := le_mul_of_one_le_left (by omega) (by omega)
  omega

theorem truncQ_nonneg_iff (q : ℚ) : 0 ≤ truncQ q ↔ -1 < q := by
  unfold truncQ
  split_ifs with h
  · constructor
    · intro _; linarith
    · intro _; exact Int.floor_nonneg.2 h
  · have h1 : (0 ≤ Int.ceil q) ↔ (-1 : Int) < Int.ceil q := by omega
    rw [h1, Int.lt_ceil]
    norm_num

theorem truncQ_lt_iff (q : ℚ) {n : Int} (hn : 0 < n) : truncQ q < n ↔ q < n := by
  unfold truncQ
  split_ifs with h
  · exact Int.floor_lt
  · have hq : q < 0 := not_le.1 h
    have h1 : Int.ceil q ≤ 0 := Int.ceil_le.2 (by exact_mod_cast hq.le)
    have h2 : (0 : ℚ) < n := by exact_mod_cast hn
    constructor
    · intro _; linarith
    · intro _; omega

theorem truncQ_range {q : ℚ} (h1 : -(2 ^ 63) ≤ q) (h2 : q < 2 ^ 63) :
    -(2 ^ 63) ≤ truncQ q ∧ truncQ q < 2 ^ 63 := by
  unfold truncQ
  split_ifs with h
  · constructor
    · have := Int.floor_nonneg.2 h
      omega
    · rw [Int.floor_lt]
      exact_mod_cast h2
  · have hq : q < 0 := not_le.1 h
    constructor
    · rw [Int.le_ceil_iff]
      push_cast
      linarith
    · have h1 : Int.ceil q ≤ 0 := Int.ceil_le.2 (by exact_mod_cast hq.le)
      omega

theorem toInt_fin_of_range (arch : Arch) {q : ℚ} (h1 : -(2 ^ 63) ≤ q) (h2 : q < 2 ^ 63) :
    toInt arch (.fin q) = truncQ q := by
  unfold toInt
  simp only
  rw [if_pos (truncQ_range h1 h2)]

/-- With `nrows = 2 ^ 62` and `ncols = 4` the product `nrows * ncols` wraps to 0,
and the empty DEM fills the empty slice without an error. -/
theorem loadGrid_wrapped_to_zero (arch : Arch) :
    loadGrid arch (some []) (2 ^ 62) 4 = .loaded [] := by
  have hw : wrap64 ((2 : Int) ^ 62 * 4) = 0 := by decide
  unfold loadGrid
  simp only [hw]
  rw [if_neg (by omega)]
  rfl

/-- The indices at the upper-left corner of the tile with `ulxmap = 0.5`,
`ulymap = 1.5` and pixels of size 1, on every architecture. -/
theorem pixelIndex_upper_left_unit (arch : Arch) :
    pixelIndex arch (.fin (3 / 2)) (.fin (1 / 2)) (.fin (1 / 2)) (.fin (3 / 2)) (.fin 1)
      (.fin 1) = (0, 0) := by
  have h1 : F64.div (F64.sub (.fin (1 / 2)) (.fin (1 / 2))) (.fin 1) = .fin 0 := by decide!
  have h2 : F64.div (F64.sub (.fin (3 / 2)) (.fin (3 / 2))) (.fin 1) = .fin 0 := by decide!
  have h0 : toInt arch (.fin 0) = 0 := toInt_of_floor (by simp) (by omega) (by omega)
  unfold pixelIndex
  simp only [h1, h2, h0]

/-! ## Elevation sampler: claims -/

/-- The sampler on a grid of the full size: when the DEM is read into a grid of
`nrows * ncols` samples (the product does not wrap) and the floors `row` and
`col` of the two quotients lie in `[0, nrows)` and `[0, ncols)`, `getElevation`
returns `grid[row * ncols + col]` and no error. -/
theorem getElevation_returns_cell (arch : Arch) (file : Option (List Byte))
    (nrows ncols row col : Int) (lat lon ulxmap ulymap xdim ydim : F64) (grid : List Int)
    (hload : loadGrid arch file nrows ncols = .loaded grid)
    (hlen : (grid.length : Int) = nrows * ncols)
    (hrow : specRow lat ulymap ydim = some row) (hcol : specCol lon ulxmap xdim = some col)
    (hr0 : 0 ≤ row) (hr1 : row < nrows) (hc0 : 0 ≤ col) (hc1 : col < ncols) :
    ∃ v, grid[(row * ncols + col).toNat]? = some v ∧
      getElevation arch file nrows ncols lat lon ulxmap ulymap xdim ydim = .ret v none := by
  obtain ⟨hn, hm⟩ := nrows_lt_of_loaded hload hlen (by omega) (by omega)
  obtain ⟨qr, er, fr⟩ := floorF64_eq_some hrow
  obtain ⟨qc, ec, fc⟩ := floorF64_eq_some hcol
  have hidx : pixelIndex arch lat lon ulxmap ulymap xdim ydim = (row, col) := by
    unfold pixelIndex
    simp only [er, ec, toInt_of_floor fr hr0 (by omega), toInt_of_floor fc hc0 (by omega)]
  exact getElevation_of_index hload hlen hidx hr0 hr1 hc0 hc1

theorem getElevation_returns_cell_witness :
    getElevation amd64 (some [0, 10, 0, 20, 0, 30, 0, 40]) 2 2 (.fin (3 / 2)) (.fin (1 / 2))
        (.fin (1 / 2)) (.fin (3 / 2)) (.fin 1) (.fin 1) = .ret 10 none ∧
      getElevation amd64 (some [0, 10, 0, 20, 0, 30, 0, 40]) 2 2 (.fin (1 / 2)) (.fin (3 / 2))
        (.fin (1 / 2)) (.fin (3 / 2)) (.fin 1) (.fin 1) = .ret 40 none := by
  have w1 := getElevation_returns_cell amd64 (some [0, 10, 0, 20, 0, 30, 0, 40]) 2 2 0 0
    (.fin (3 / 2)) (.fin (1 / 2)) (.fin (1 / 2)) (.fin (3 / 2)) (.fin 1) (.fin 1)
    [10, 20, 30, 40] (by decide) (by decide) (by decide!) (by decide!) (by decide) (by decide)
    (by decide) (by decide)
  have w2 := getElevation_returns_cell amd64 (some [0, 10, 0, 20, 0, 30, 0, 40]) 2 2 1 1
    (.fin (1 / 2)) (.fin (3 / 2)) (.fin (1 / 2)) (.fin (3 / 2)) (.fin 1) (.fin 1)
    [10, 20, 30, 40] (by decide) (by decide) (by decide!) (by decide!) (by decide) (by decide)
    (by decide) (by decide)
  obtain ⟨v1, g1, e1⟩ := w1
  obtain ⟨v2, g2, e2⟩ := w2
  have a1 : v1 = 10 := by
    have h0 : ([10, 20, 30, 40] : List Int)[((0 : Int) * 2 + 0).toNat]? = some 10 := by decide
    rw [h0] at g1
    exact (Option.some.inj g1).symm
  have a2 : v2 = 40 := by
    have h0 : ([10, 20, 30, 40] : List Int)[((1 : Int) * 2 + 1).toNat]? = some 40 := by decide
    rw [h0] at g2
    exact (Option.some.inj g2).symm
  rw [a1] at e1
  rw [a2] at e2
  exact ⟨e1, e2⟩

/-- Claim C6 at its failing input, on every architecture.  With
`nrows = 2 ^ 62` and `ncols = 4` the product wraps to 0: the empty DEM is read
with no error, the floors of the quotients at `lat = 1.5`, `lon = 0.5` are
`row = 0` and `col = 0`, inside `[0, nrows)` and `[0, ncols)`, and `getElevation`
panics on `data[0]` where the claim has it return `grid[0]`. -/
theorem returns_cell_fails_on_wrapped_product (arch : Arch) :
    loadGrid arch (some []) (2 ^ 62) 4 = .loaded [] ∧
      specRow (.fin (3 / 2)) (.fin (3 / 2)) (.fin 1) = some 0 ∧
      specCol (.fin (1 / 2)) (.fin (1 / 2)) (.fin 1) = some 0 ∧
      ((0 : Int) ≤ 0 ∧ (0 : Int) < 2 ^ 62 ∧ (0 : Int) < 4) ∧
      getElevation arch (some []) (2 ^ 62) 4 (.fin (3 / 2)) (.fin (1 / 2)) (.fin (1 / 2))
        (.fin (3 / 2)) (.fin 1) (.fin 1) = .panic := by
  have hload : loadGrid arch (some []) (2 ^ 62) 4 = .loaded [] :=
    loadGrid_wrapped_to_zero arch
  have hidx := pixelIndex_upper_left_unit arch
  refine ⟨hload, by decide!, by decide!, by decide, ?_⟩
  unfold getElevation
  simp only [hload, hidx]
  decide

/-- Claim C7, as stated, fails: on the 2 x 2 tile with `ulxmap = 0.5`,
`ulymap = 1.5` and unit pixels, the longitude 0 (west of `ulxmap`, column floor
-1) and the latitude 2 (north of `ulymap`, row floor -1) both return the sample
`grid[0] = 10` with no error. -/
theorem outside_extent_counterexample :
    (F64.lt (.fin 0) (.fin (1 / 2)) = true ∧
        specCol (.fin 0) (.fin (1 / 2)) (.fin 1) = some (-1) ∧
        getElevation amd64 (some [0, 10, 0, 20, 0, 30, 0, 40]) 2 2 (.fin (3 / 2)) (.fin 0)
          (.fin (1 / 2)) (.fin (3 / 2)) (.fin 1) (.fin 1) = .ret 10 none) ∧
      (F64.gt (.fin 2) (.fin (3 / 2)) = true ∧
        specRow (.fin 2) (.fin (3 / 2)) (.fin 1) = some (-1) ∧
        getElevation amd64 (some [0, 10, 0, 20, 0, 30, 0, 40]) 2 2 (.fin 2) (.fin (1 / 2))
          (.fin (1 / 2)) (.fin (3 / 2)) (.fin 1) (.fin 1) = .ret 10 none) := by
  decide!

/-- Claim C7, amended: with `nrows, ncols > 0`, a loaded DEM and finite
quotients `qr = (ulymap - lat) / ydim` and `qc = (lon - ulxmap) / xdim` within
the int64 range, `getElevation` fails with the out-of-bounds error and -9999
exactly when `qr ≤ -1`, `qr ≥ nrows`, `qc ≤ -1` or `qc ≥ ncols`: the conversion
truncates toward zero, so a quotient strictly between -1 and 0 selects index 0. -/
theorem getElevation_out_of_bounds_iff (arch : Arch) (file : Option (List Byte))
    (nrows ncols : Int) (lat lon ulxmap ulymap xdim ydim : F64) (grid : List Int) (qr qc : ℚ)
    (hload : loadGrid arch file nrows ncols = .loaded grid)
    (hnr : 0 < nrows) (hnc : 0 < ncols)
    (hqr : F64.div (F64.sub ulymap lat) ydim = .fin qr)
    (hqc : F64.div (F64.sub lon ulxmap) xdim = .fin qc)
    (hr : -(2 ^ 63) ≤ qr ∧ qr < 2 ^ 63) (hc : -(2 ^ 63) ≤ qc ∧ qc < 2 ^ 63) :
    getElevation arch file nrows ncols lat lon ulxmap ulymap xdim ydim
        = .ret (-9999) (some .outOfBounds) ↔
      (qr ≤ -1 ∨ (nrows : ℚ) ≤ qr ∨ qc ≤ -1 ∨ (ncols : ℚ) ≤ qc) := by
  have hidx : pixelIndex arch lat lon ulxmap ulymap xdim ydim = (truncQ qr, truncQ qc) := by
    unfold pixelIndex
    simp only [hqr, hqc, toInt_fin_of_range arch hr.1 hr.2, toInt_fin_of_range arch hc.1 hc.2]
  unfold getElevation
  simp only [hload, hidx, ge_iff_le, truncQ_nonneg_iff, truncQ_lt_iff _ hnr, truncQ_lt_iff _ hnc]
  split_ifs with hin hk
  · constructor
    · intro h; exact absurd h (by simp)
    · intro h; rcases h with h | h | h | h <;> linarith [hin.1, hin.2.1, hin.2.2.1, hin.2.2.2]
  · constructor
    · intro h
      split at h <;> simp at h
    · intro h; rcases h with h | h | h | h <;> linarith [hin.1, hin.2.1, hin.2.2.1, hin.2.2.2]
  · constructor
    · intro _
      by_contra hcon
      apply hin
      simp only [not_or, not_le] at hcon
      exact ⟨hcon.1, hcon.2.1, hcon.2.2.1, hcon.2.2.2⟩
    · intro _; rfl

theorem getElevation_out_of_bounds_iff_witness :
    getElevation amd64 (some [0, 10, 0, 20, 0, 30, 0, 40]) 2 2 (.fin (3 / 2)) (.fin (-1 / 2))
        (.fin (1 / 2)) (.fin (3 / 2)) (.fin 1) (.fin 1) = .ret (-9999) (some .outOfBounds) :=
  (getElevation_out_of_bounds_iff amd64 (some [0, 10, 0, 20, 0, 30, 0, 40]) 2 2 (.fin (3 / 2))
    (.fin (-1 / 2)) (.fin (1 / 2)) (.fin (3 / 2)) (.fin 1) (.fin 1) [10, 20, 30, 40] 0 (-1)
    (by decide) (by decide) (by decide) (by decide!) (by decide!)
    (by norm_num) (by norm_num)).2 (Or.inr (Or.inr (Or.inl (le_refl _))))

/-- A pixel size of zero: on a 2 x 2 tile whose DEM is read and whose `xdim` is
0 (a header without XDIM), the lookup at `(ulymap, ulxmap)` divides zero by zero
and, on amd64, ends in the out-of-bounds error. -/
theorem getElevation_upper_left_zero_xdim :
    loadGrid amd64 (some [0, 10, 0, 20, 0, 30, 0, 40]) 2 2 = .loaded [10, 20, 30, 40] ∧
      getElevation amd64 (some [0, 10, 0, 20, 0, 30, 0, 40]) 2 2 (.fin (3 / 2)) (.fin (1 / 2))
        (.fin (1 / 2)) (.fin (3 / 2)) (.fin 0) (.fin 1) = .ret (-9999) (some .outOfBounds) := by
  decide!

/-- The upper-left sample on a grid of the full size: for `nrows, ncols > 0`, a
DEM read into a grid of `nrows * ncols` samples (the product does not wrap),
finite `ulxmap` and `ulymap`, and `xdim`, `ydim` that are neither zero nor NaN,
`getElevation` at `targetLat = ulymap`, `targetLon = ulxmap` returns `grid[0]`
and no error. -/
theorem getElevation_upper_left (arch : Arch) (file : Option (List Byte)) (nrows ncols : Int)
    (ux uy : ℚ) (xdim ydim : F64) (grid : List Int)
    (hload : loadGrid arch file nrows ncols = .loaded grid)
    (hlen : (grid.length : Int) = nrows * ncols)
    (hnr : 0 < nrows) (hnc : 0 < ncols)
    (hx0 : xdim ≠ .fin 0) (hxn : xdim ≠ .nan) (hy0 : ydim ≠ .fin 0) (hyn : ydim ≠ .nan) :
    ∃ v, grid[0]? = some v ∧
      getElevation arch file nrows ncols (.fin uy) (.fin ux) (.fin ux) (.fin uy) xdim ydim
        = .ret v none := by
  have hdiv : ∀ d : F64, d ≠ .fin 0 → d ≠ .nan → F64.div (.fin 0) d = .fin 0 := by
    intro d h0 hn
    cases d with
    | fin b =>
      have hb : b ≠ 0 := fun h => h0 (by rw [h])
      simp [F64.div, hb, roundF64]
    | pinf => rfl
    | ninf => rfl
    | nan => exact absurd rfl hn
  have hsub : ∀ u : ℚ, F64.sub (.fin u) (.fin u) = .fin 0 := by
    intro u
    simp [F64.sub, roundF64]
  have h0 : toInt arch (.fin 0) = 0 := toInt_of_floor (by simp) (by omega) (by omega)
  have hidx : pixelIndex arch (.fin uy) (.fin ux) (.fin ux) (.fin uy) xdim ydim = (0, 0) := by
    unfold pixelIndex
    simp only [hsub, hdiv xdim hx0 hxn, hdiv ydim hy0 hyn, h0]
  have hres := getElevation_of_index hload hlen hidx (le_refl 0) hnr (le_refl 0) hnc
  simpa using hres

theorem getElevation_upper_left_witness :
    ∃ v, ([10, 20, 30, 40] : List Int)[0]? = some v ∧
      getElevation amd64 (some [0, 10, 0, 20, 0, 30, 0, 40]) 2 2 (.fin (3 / 2)) (.fin (1 / 2))
        (.fin (1 / 2)) (.fin (3 / 2)) (.fin 1) (.fin 1) = .ret v none :=
  getElevation_upper_left amd64 (some [0, 10, 0, 20, 0, 30, 0, 40]) 2 2 (1 / 2) (3 / 2)
    (.fin 1) (.fin 1) [10, 20, 30, 40] (by decide) (by decide) (by decide) (by decide)
    (by decide!) (by decide) (by decide!) (by decide)

/-- Claim C9 at its failing input, on every architecture.  With
`nrows = 2 ^ 62 > 0` and `ncols = 4 > 0` and pixels of size 1, the product wraps
to 0 and the empty DEM is read with no error; the lookup at
`targetLat = ulymap = 1.5`, `targetLon = ulxmap = 0.5` has the indices `(0, 0)`,
which pass the bounds check, and `getElevation` panics on `data[0]` where the
claim has it return the upper-left sample. -/
theorem upper_left_fails_on_wrapped_product (arch : Arch) :
    ((0 : Int) < 2 ^ 62 ∧ (0 : Int) < 4) ∧
      loadGrid arch (some []) (2 ^ 62) 4 = .loaded [] ∧
      pixelIndex arch (.fin (3 / 2)) (.fin (1 / 2)) (.fin (1 / 2)) (.fin (3 / 2)) (.fin 1)
        (.fin 1) = (0, 0) ∧
      getElevation arch (some []) (2 ^ 62) 4 (.fin (3 / 2)) (.fin (1 / 2)) (.fin (1 / 2))
        (.fin (3 / 2)) (.fin 1) (.fin 1) = .panic := by
  have hload : loadGrid arch (some []) (2 ^ 62) 4 = .loaded [] :=
    loadGrid_wrapped_to_zero arch
  have hidx := pixelIndex_upper_left_unit arch
  refine ⟨by decide, hload, hidx, ?_⟩
  unfold getElevation
  simp only [hload, hidx]
  decide

/-! ## Header reader -/

theorem scanLines_append (pf : String → Option F64) (pre rest : List String)
    (h0 : GTOPOHeaderInfo) :
    scanLines pf (pre ++ rest) h0 =
      match scanLines pf pre h0 with
      | .error e => .error e
      | .ok h => scanLines pf rest h := by
  induction pre generalizing h0 with
  | nil => rfl
  | cons l ls ih =>
    simp only [List.cons_append, scanLines]
    cases applyLine pf h0 l with
    | error e => rfl
    | ok h1 => exact ih h1

theorem applyLine_checked_int {pf : String → Option F64} {h : GTOPOHeaderInfo}
    {line key value : String} (hline : fields line = [key, value])
    (hkey : key ∈ checkedIntKeys) (hbad : (parseInt value 64).2 ≠ none) :
    applyLine pf h line = .error (.parseKey key) := by
  have hi : ∀ f : Int → GTOPOHeaderInfo, intField key value f = .error (.parseKey key) := by
    intro f
    unfold intField
    cases hp : parseInt value 64 with
    | mk v e =>
      cases e with
      | none => rw [hp] at hbad; exact absurd rfl hbad
      | some e => rfl
  unfold applyLine
  simp only [hline]
  simp only [checkedIntKeys, List.mem_cons, List.mem_singleton, List.not_mem_nil, or_false] at hkey
  rcases hkey with rfl | rfl | rfl | rfl | rfl | rfl <;> simp [hi]

theorem applyLine_float {pf : String → Option F64} {h : GTOPOHeaderInfo}
    {line key value : String} (hline : fields line = [key, value])
    (hkey : key ∈ floatKeys) (hbad : pf value = none) :
    applyLine pf h line = .error (.parseKey key) := by
  have hi : ∀ f : F64 → GTOPOHeaderInfo, floatField pf key value f = .error (.parseKey key) := by
    intro f
    unfold floatField
    rw [hbad]
  unfold applyLine
  simp only [hline]
  simp only [floatKeys, List.mem_cons, List.mem_singleton, List.not_mem_nil, or_false] at hkey
  rcases hkey with rfl | rfl | rfl | rfl <;> simp [hi]

/-- The ten checked keys: when the lines before it are read without error, a
two-field line whose key is one of `checkedIntKeys` or `floatKeys` and whose
value does not parse makes `readHeaderFile` return the error that names this
key, and no record. -/
theorem readHeaderFile_parse_error (pf : String → Option F64) (pre post : List String)
    (line key value : String) (scanErr : Bool) (h : GTOPOHeaderInfo)
    (hpre : scanLines pf pre GTOPOHeaderInfo.zero = .ok h)
    (hline : fields line = [key, value])
    (hbad : (key ∈ checkedIntKeys ∧ (parseInt value 64).2 ≠ none) ∨
      (key ∈ floatKeys ∧ pf value = none)) :
    readHeaderFile pf (some ⟨pre ++ line :: post, scanErr⟩) = .error (.parseKey key) := by
  have hl : applyLine pf h line = .error (.parseKey key) := by
    rcases hbad with ⟨hk, hv⟩ | ⟨hk, hv⟩
    · exact applyLine_checked_int hline hk hv
    · exact applyLine_float hline hk hv
  unfold readHeaderFile
  simp only [scanLines_append, hpre, scanLines, hl]

theorem readHeaderFile_parse_error_witness :
    readHeaderFile (fun _ => none) (some ⟨["BYTEORDER M", "NROWS 6000", "NCOLS 48x0"], false⟩)
      = .error (.parseKey "NCOLS") :=
  readHeaderFile_parse_error (fun _ => none) ["BYTEORDER M", "NROWS 6000"] [] "NCOLS 48x0"
    "NCOLS" "48x0" false
    { GTOPOHeaderInfo.zero with byteOrder := 'M', nrows := 6000 }
    (by rfl) (by decide) (Or.inl ⟨by decide, by decide⟩)

/-- Claim C10 at its failing inputs: a header whose only line is `NBANDS abc`,
`BANDGAPBYTES 1.5` or `NBANDS 3000000000` carries a malformed value of a
recognized numeric key, yet `readHeaderFile` returns a record and no error (the
field is 0, or the clamped value); and in `NBANDS abc`, `NROWS x` the error names
NROWS, not the first offending key NBANDS. -/
theorem unchecked_keys_swallow_errors (pf : String → Option F64) :
    ((parseInt "abc" 32).2 = some .malformed ∧
        readHeaderFile pf (some ⟨["NBANDS abc"], false⟩) = .ok GTOPOHeaderInfo.zero) ∧
      ((parseInt "1.5" 32).2 = some .malformed ∧
        readHeaderFile pf (some ⟨["BANDGAPBYTES 1.5"], false⟩) = .ok GTOPOHeaderInfo.zero) ∧
      ((parseInt "3000000000" 32) = (2147483647, some .outOfRange) ∧
        readHeaderFile pf (some ⟨["NBANDS 3000000000"], false⟩)
          = .ok { GTOPOHeaderInfo.zero with nbands := 2147483647 }) ∧
      readHeaderFile pf (some ⟨["NBANDS abc", "NROWS x"], false⟩)
        = .error (.parseKey "NROWS") := by
  refine ⟨⟨by decide, ?_⟩, ⟨by decide, ?_⟩, ⟨by decide, ?_⟩, ?_⟩ <;> rfl

/-! ## Header reader: the record after the scanned lines -/

theorem applyLine_skipped (pf : String → Option F64) (h : GTOPOHeaderInfo) {line : String}
    (hs : skippedLine line = true) : applyLine pf h line = .ok h := by
  unfold skippedLine at hs
  unfold applyLine
  split
  · rename_i key value hf
    rw [hf] at hs
    simp only [recognizedKeys, Bool.not_eq_true', List.contains_eq_any_beq, List.any_cons,
      List.any_nil, Bool.or_false, Bool.or_eq_false_iff, beq_eq_false_iff_ne, ne_eq] at hs
    obtain ⟨k1, k2, k3, k4, k5, k6, k7, k8, k9, k10, k11, k12, k13, k14⟩ := hs
    simp only [k1, k2, k3, k4, k5, k6, k7, k8, k9, k10, k11, k12, k13, k14, if_false]
  · rfl

theorem intField_ok {key value : String} {f : Int → GTOPOHeaderInfo} {h1 : GTOPOHeaderInfo}
    (h : intField key value f = .ok h1) : h1 = f (parseInt value 64).1 := by
  unfold intField at h
  split at h
  · rename_i v hp
    rw [hp]
    exact (Except.ok.inj h).symm
  · exact absurd h (by simp)

theorem floatField_ok {pf : String → Option F64} {key value : String}
    {f : F64 → GTOPOHeaderInfo} {h1 : GTOPOHeaderInfo}
    (h : floatField pf key value f = .ok h1) : h1 = f ((pf value).getD (.fin 0)) := by
  unfold floatField at h
  split at h
  · rename_i v hp
    rw [hp]
    exact (Except.ok.inj h).symm
  · exact absurd h (by simp)

theorem valueFor_of_fields {line key value : String} (hf : fields line = [key, value])
    (k : String) : valueFor k line = if key = k then some value else none := by
  unfold valueFor
  rw [hf]

theorem valueFor_of_not_two {line : String}
    (hf : ∀ key value, fields line = [key, value] → False) (k : String) :
    valueFor k line = none := by
  unfold valueFor
  split
  · rename_i key value hk
    exact absurd hk (fun hk => hf key value hk)
  · rfl

theorem applyLine_ok {pf : String → Option F64} {h h1 : GTOPOHeaderInfo} {line : String}
    (hap : applyLine pf h line = .ok h1) : h1 = stepRecord pf h line := by
  unfold applyLine at hap
  split at hap
  · rename_i key value hf
    have hv := valueFor_of_fields hf
    by_cases c1 : key = "BYTEORDER"
    · rw [if_pos c1] at hap
      have e := Except.ok.inj hap
      subst e
      subst c1
      simp [stepRecord, hv]
    by_cases c2 : key = "LAYOUT"
    · rw [if_neg c1, if_pos c2] at hap
      have e := Except.ok.inj hap
      subst e
      subst c2
      simp [stepRecord, hv]
    by_cases c3 : key = "NROWS"
    · rw [if_neg c1, if_neg c2, if_pos c3] at hap
      have e := intField_ok hap
      subst e
      subst c3
      simp [stepRecord, hv]
    by_cases c4 : key = "NCOLS"
    · rw [if_neg c1, if_neg c2, if_neg c3, if_pos c4] at hap
      have e := intField_ok hap
      subst e
      subst c4
      simp [stepRecord, hv]
    by_cases c5 : key = "NBANDS"
    · rw [if_neg c1, if_neg c2, if_neg c3, if_neg c4, if_pos c5] at hap
      have e := Except.ok.inj hap
      subst e
      subst c5
      simp [stepRecord, hv]
    by_cases c6 : key = "NBITS"
    · rw [if_neg c1, if_neg c2, if_neg c3, if_neg c4, if_neg c5, if_pos c6] at hap
      have e := intField_ok hap
      subst e
      subst c6
      simp [stepRecord, hv]
    by_cases c7 : key = "BANDROWBYTES"
    · rw [if_neg c1, if_neg c2, if_neg c3, if_neg c4, if_neg c5, if_neg c6, if_pos c7] at hap
      have e := intField_ok hap
      subst e
      subst c7
      simp [stepRecord, hv]
    by_cases c8 : key = "TOTALROWBYTES"
    · rw [if_neg c1, if_neg c2, if_neg c3, if_neg c4, if_neg c5, if_neg c6, if_neg c7, if_pos c8] at hap
      have e := intField_ok hap
      subst e
      subst c8
      simp [stepRecord, hv]
    by_cases c9 : key = "BANDGAPBYTES"
    · rw [if_neg c1, if_neg c2, if_neg c3, if_neg c4, if_neg c5, if_neg c6, if_neg c7, if_neg c8, if_pos c9] at hap
      have e := Except.ok.inj hap
      subst e
      subst c9
      simp [stepRecord, hv]
    by_cases c10 : key = "NODATA"
    · rw [if_neg c1, if_neg c2, if_neg c3, if_neg c4, if_neg c5, if_neg c6, if_neg c7, if_neg c8, if_neg c9, if_pos c10] at hap
      have e := intField_ok hap
      subst e
      subst c10
      simp [stepRecord, hv]
    by_cases c11 : key = "ULXMAP"
    · rw [if_neg c1, if_neg c2, if_neg c3, if_neg c4, if_neg c5, if_neg c6, if_neg c7, if_neg c8, if_neg c9, if_neg c10, if_pos c11] at hap
      have e := floatField_ok hap
      subst e
      subst c11
      simp [stepRecord, hv]
    by_cases c12 : key = "ULYMAP"
    · rw [if_neg c1, if_neg c2, if_neg c3, if_neg c4, if_neg c5, if_neg c6, if_neg c7, if_neg c8, if_neg c9, if_neg c10, if_neg c11, if_pos c12] at hap
      have e := floatField_ok hap
      subst e
      subst c12
      simp [stepRecord, hv]
    by_cases c13 : key = "XDIM"
    · rw [if_neg c1, if_neg c2, if_neg c3, if_neg c4, if_neg c5, if_neg c6, if_neg c7, if_neg c8, if_neg c9, if_neg c10, if_neg c11, if_neg c12, if_pos c13] at hap
      have e := floatField_ok hap
      subst e
      subst c13
      simp [stepRecord, hv]
    by_cases c14 : key = "YDIM"
    · rw [if_neg c1, if_neg c2, if_neg c3, if_neg c4, if_neg c5, if_neg c6, if_neg c7, if_neg c8, if_neg c9, if_neg c10, if_neg c11, if_neg c12, if_neg c13, if_pos c14] at hap
      have e := floatField_ok hap
      subst e
      subst c14
      simp [stepRecord, hv]
    rw [if_neg c1, if_neg c2, if_neg c3, if_neg c4, if_neg c5, if_neg c6, if_neg c7, if_neg c8, if_neg c9, if_neg c10, if_neg c11, if_neg c12, if_neg c13, if_neg c14] at hap
    have e := Except.ok.inj hap
    subst e
    simp [stepRecord, hv, c1, c2, c3, c4, c5, c6, c7, c8, c9, c10, c11, c12, c13, c14]
  · rename_i hne
    have e := Except.ok.inj hap
    subst e
    have hv := valueFor_of_not_two hne
    simp only [stepRecord, hv]

theorem lastValue_cons (key line : String) (rest : List String) :
    lastValue (line :: rest) key =
      match lastValue rest key with
      | some v => some v
      | none => valueFor key line := by
  unfold lastValue
  rw [List.filterMap_cons]
  cases hv : valueFor key line with
  | none =>
    simp only
    cases (List.filterMap (valueFor key) rest).getLast? <;> rfl
  | some v =>
    simp only [List.getLast?_cons]
    cases (List.filterMap (valueFor key) rest).getLast? <;> rfl

/-- A field after the scanning loop: the value of the last line that carries its
key, or the field's value before the loop. -/
theorem scanLines_field {α : Type} (pf : String → Option F64) (P : GTOPOHeaderInfo → α)
    (key : String) (g : String → α)
    (hstep : ∀ h line, P (stepRecord pf h line) =
      match valueFor key line with
      | some v => g v
      | none => P h)
    (lines : List String) (h0 h : GTOPOHeaderInfo) (hs : scanLines pf lines h0 = .ok h) :
    P h = match lastValue lines key with
      | some v => g v
      | none => P h0 := by
  induction lines generalizing h0 with
  | nil =>
    simp only [scanLines] at hs
    rw [← Except.ok.inj hs]
    rfl
  | cons line rest ih =>
    simp only [scanLines] at hs
    cases hap : applyLine pf h0 line with
    | error e => rw [hap] at hs; exact absurd hs (by simp)
    | ok h1 =>
      rw [hap] at hs
      have e1 := applyLine_ok hap
      rw [ih h1 hs, lastValue_cons]
      cases lastValue rest key with
      | some v => rfl
      | none =>
        simp only
        rw [e1, hstep]

theorem parseInt32_range (s : String) :
    -(2 ^ 31) ≤ (parseInt s 32).1 ∧ (parseInt s 32).1 < 2 ^ 31 := by
  unfold parseInt
  split
  · simp
  · rename_i c cs hc
    simp only
    split
    · simp
    · rename_i un e hne hp
      split_ifs with h1 h2 h3
      · simp
      · simp
      · simp only [not_and, not_le, not_lt] at h1 h2
        simp only
        have := h2 h3
        norm_num at this ⊢
        omega
      · simp only [not_and, not_le, not_lt, Bool.not_eq_true] at h1 h2 h3
        simp only
        have := h1 h3
        norm_num at this ⊢
        omega

theorem wrap32_parseInt (s : String) : wrap32 (parseInt s 32).1 = (parseInt s 32).1 := by
  obtain ⟨h1, h2⟩ := parseInt32_range s
  unfold wrap32
  omega

theorem intField_of_parsed {key value : String} (f : Int → GTOPOHeaderInfo)
    (hp : (parseInt value 64).2 = none) :
    intField key value f = .ok (f (parseInt value 64).1) := by
  unfold intField
  cases hq : parseInt value 64 with
  | mk v e =>
    rw [hq] at hp
    simp only at hp
    subst hp
    rfl

theorem floatField_of_parsed {pf : String → Option F64} {key value : String}
    (f : F64 → GTOPOHeaderInfo) (hp : pf value ≠ none) :
    ∃ h1, floatField pf key value f = .ok h1 := by
  unfold floatField
  cases hq : pf value with
  | none => exact absurd hq hp
  | some v => exact ⟨_, rfl⟩

theorem applyLine_of_wellFormed {pf : String → Option F64} (h : GTOPOHeaderInfo)
    {line : String} (hw : wellFormedLine pf line) : ∃ h1, applyLine pf h line = .ok h1 := by
  unfold applyLine
  split
  · rename_i key value hf
    unfold wellFormedLine at hw
    rw [hf] at hw
    obtain ⟨wi, -, wf⟩ := hw
    by_cases c1 : key = "BYTEORDER"
    · rw [if_pos c1]
      exact ⟨_, rfl⟩
    by_cases c2 : key = "LAYOUT"
    · rw [if_neg c1, if_pos c2]
      exact ⟨_, rfl⟩
    by_cases c3 : key = "NROWS"
    · rw [if_neg c1, if_neg c2, if_pos c3]
      exact ⟨_, intField_of_parsed _ (wi (by rw [c3]; decide))⟩
    by_cases c4 : key = "NCOLS"
    · rw [if_neg c1, if_neg c2, if_neg c3, if_pos c4]
      exact ⟨_, intField_of_parsed _ (wi (by rw [c4]; decide))⟩
    by_cases c5 : key = "NBANDS"
    · rw [if_neg c1, if_neg c2, if_neg c3, if_neg c4, if_pos c5]
      exact ⟨_, rfl⟩
    by_cases c6 : key = "NBITS"
    · rw [if_neg c1, if_neg c2, if_neg c3, if_neg c4, if_neg c5, if_pos c6]
      exact ⟨_, intField_of_parsed _ (wi (by rw [c6]; decide))⟩
    by_cases c7 : key = "BANDROWBYTES"
    · rw [if_neg c1, if_neg c2, if_neg c3, if_neg c4, if_neg c5, if_neg c6, if_pos c7]
      exact ⟨_, intField_of_parsed _ (wi (by rw [c7]; decide))⟩
    by_cases c8 : key = "TOTALROWBYTES"
    · rw [if_neg c1, if_neg c2, if_neg c3, if_neg c4, if_neg c5, if_neg c6, if_neg c7, if_pos c8]
      exact ⟨_, intField_of_parsed _ (wi (by rw [c8]; decide))⟩
    by_cases c9 : key = "BANDGAPBYTES"
    · rw [if_neg c1, if_neg c2, if_neg c3, if_neg c4, if_neg c5, if_neg c6, if_neg c7, if_neg c8, if_pos c9]
      exact ⟨_, rfl⟩
    by_cases c10 : key = "NODATA"
    · rw [if_neg c1, if_neg c2, if_neg c3, if_neg c4, if_neg c5, if_neg c6, if_neg c7, if_neg c8, if_neg c9, if_pos c10]
      exact ⟨_, intField_of_parsed _ (wi (by rw [c10]; decide))⟩
    by_cases c11 : key = "ULXMAP"
    · rw [if_neg c1, if_neg c2, if_neg c3, if_neg c4, if_neg c5, if_neg c6, if_neg c7, if_neg c8, if_neg c9, if_neg c10, if_pos c11]
      exact floatField_of_parsed _ (wf (by rw [c11]; decide))
    by_cases c12 : key = "ULYMAP"
    · rw [if_neg c1, if_neg c2, if_neg c3, if_neg c4, if_neg c5, if_neg c6, if_neg c7, if_neg c8, if_neg c9, if_neg c10, if_neg c11, if_pos c12]
      exact floatField_of_parsed _ (wf (by rw [c12]; decide))
    by_cases c13 : key = "XDIM"
    · rw [if_neg c1, if_neg c2, if_neg c3, if_neg c4, if_neg c5, if_neg c6, if_neg c7, if_neg c8, if_neg c9, if_neg c10, if_neg c11, if_neg c12, if_pos c13]
      exact floatField_of_parsed _ (wf (by rw [c13]; decide))
    by_cases c14 : key = "YDIM"
    · rw [if_neg c1, if_neg c2, if_neg c3, if_neg c4, if_neg c5, if_neg c6, if_neg c7, if_neg c8, if_neg c9, if_neg c10, if_neg c11, if_neg c12, if_neg c13, if_pos c14]
      exact floatField_of_parsed _ (wf (by rw [c14]; decide))
    rw [if_neg c1, if_neg c2, if_neg c3, if_neg c4, if_neg c5, if_neg c6, if_neg c7, if_neg c8, if_neg c9, if_neg c10, if_neg c11, if_neg c12, if_neg c13, if_neg c14]
    exact ⟨_, rfl⟩
  · exact ⟨_, rfl⟩

theorem scanLines_of_wellFormed {pf : String → Option F64} (lines : List String)
    (h0 : GTOPOHeaderInfo) (hw : ∀ line, line ∈ lines → wellFormedLine pf line) :
    ∃ h, scanLines pf lines h0 = .ok h := by
  induction lines generalizing h0 with
  | nil => exact ⟨h0, rfl⟩
  | cons line rest ih =>
    obtain ⟨h1, e1⟩ := applyLine_of_wellFormed h0 (hw line (List.mem_cons_self _ _))
    obtain ⟨h2, e2⟩ := ih h1 (fun l hl => hw l (List.mem_cons_of_mem _ hl))
    exact ⟨h2, by simp only [scanLines, e1, e2]⟩

theorem scanLines_eq_specHeader {pf : String → Option F64} (lines : List String)
    (h : GTOPOHeaderInfo) (hs : scanLines pf lines GTOPOHeaderInfo.zero = .ok h) :
    h = specHeader pf lines := by
  have f1 := scanLines_field pf (fun r => r.byteOrder) "BYTEORDER"
    (fun v => if v = "M" then 'M' else 'L') (fun _ _ => rfl) lines _ h hs
  have f2 := scanLines_field pf (fun r => r.layout) "LAYOUT" (fun v => v)
    (fun _ _ => rfl) lines _ h hs
  have f3 := scanLines_field pf (fun r => r.nrows) "NROWS" (fun v => (parseInt v 64).1)
    (fun _ _ => rfl) lines _ h hs
  have f4 := scanLines_field pf (fun r => r.ncols) "NCOLS" (fun v => (parseInt v 64).1)
    (fun _ _ => rfl) lines _ h hs
  have f5 := scanLines_field pf (fun r => r.nbands) "NBANDS" (fun v => (parseInt v 32).1)
    (fun _ _ => by simp only [stepRecord, wrap32_parseInt]) lines _ h hs
  have f6 := scanLines_field pf (fun r => r.nbits) "NBITS" (fun v => (parseInt v 64).1)
    (fun _ _ => rfl) lines _ h hs
  have f7 := scanLines_field pf (fun r => r.bandRowBytes) "BANDROWBYTES"
    (fun v => (parseInt v 64).1) (fun _ _ => rfl) lines _ h hs
  have f8 := scanLines_field pf (fun r => r.totalRowBytes) "TOTALROWBYTES"
    (fun v => (parseInt v 64).1) (fun _ _ => rfl) lines _ h hs
  have f9 := scanLines_field pf (fun r => r.bandGapBytes) "BANDGAPBYTES"
    (fun v => (parseInt v 32).1)
    (fun _ _ => by simp only [stepRecord, wrap32_parseInt]) lines _ h hs
  have f10 := scanLines_field pf (fun r => r.nodata) "NODATA" (fun v => (parseInt v 64).1)
    (fun _ _ => rfl) lines _ h hs
  have f11 := scanLines_field pf (fun r => r.ulxmap) "ULXMAP"
    (fun v => (pf v).getD (.fin 0)) (fun _ _ => rfl) lines _ h hs
  have f12 := scanLines_field pf (fun r => r.ulymap) "ULYMAP"
    (fun v => (pf v).getD (.fin 0)) (fun _ _ => rfl) lines _ h hs
  have f13 := scanLines_field pf (fun r => r.xdim) "XDIM"
    (fun v => (pf v).getD (.fin 0)) (fun _ _ => rfl) lines _ h hs
  have f14 := scanLines_field pf (fun r => r.ydim) "YDIM"
    (fun v => (pf v).getD (.fin 0)) (fun _ _ => rfl) lines _ h hs
  cases h
  simp only at f1 f2 f3 f4 f5 f6 f7 f8 f9 f10 f11 f12 f13 f14
  simp only [specHeader, f1, f2, f3, f4, f5, f6, f7, f8, f9, f10, f11, f12, f13, f14,
    GTOPOHeaderInfo.zero]

/-- A header whose lines are all delivered and carry well-formed numbers is
read without error, and the record holds, field by field, the last value. -/
theorem readHeaderFile_of_wellFormed (pf : String → Option F64) (lines : List String)
    (hw : ∀ line, line ∈ lines → wellFormedLine pf line) :
    readHeaderFile pf (some ⟨lines, false⟩) = .ok (specHeader pf lines) := by
  obtain ⟨h, hs⟩ := scanLines_of_wellFormed lines GTOPOHeaderInfo.zero hw
  have e := scanLines_eq_specHeader lines h hs
  unfold readHeaderFile
  simp only [hs, e]
  rfl

theorem scanLines_skip (pf : String → Option F64) (pre post : List String) {line : String}
    (hs : skippedLine line = true) (h0 : GTOPOHeaderInfo) :
    scanLines pf (pre ++ line :: post) h0 = scanLines pf (pre ++ post) h0 := by
  rw [scanLines_append, scanLines_append]
  cases scanLines pf pre h0 with
  | error e => rfl
  | ok h => simp only [scanLines, applyLine_skipped pf h hs]

/-- A skipped line among the delivered lines does not change the outcome. -/
theorem readHeaderFile_skip (pf : String → Option F64) (pre post : List String)
    (line : String) (scanErr : Bool) (hs : skippedLine line = true) :
    readHeaderFile pf (some ⟨pre ++ line :: post, scanErr⟩)
      = readHeaderFile pf (some ⟨pre ++ post, scanErr⟩) := by
  unfold readHeaderFile
  simp only [scanLines_skip pf pre post hs]

/-! ## Header reader: the scanner on the text of a header -/

theorem rawLines_line (l post : List Char) (h : '\n' ∉ l) (cur : List Char) :
    rawLines (l ++ '\n' :: post) cur = (cur.reverse ++ l) :: rawLines post [] := by
  induction l generalizing cur with
  | nil => simp [rawLines]
  | cons c cs ih =>
    have hc : c ≠ '\n' := fun e => h (by simp [e])
    have hcs : '\n' ∉ cs := fun e => h (List.mem_cons_of_mem _ e)
    rw [List.cons_append, rawLines, if_neg hc, ih hcs]
    simp

theorem rawLines_last (l : List Char) (h : '\n' ∉ l) (cur : List Char) :
    rawLines l cur = if (cur.reverse ++ l).isEmpty then [] else [cur.reverse ++ l] := by
  induction l generalizing cur with
  | nil => simp [rawLines]
  | cons c cs ih =>
    have hc : c ≠ '\n' := fun e => h (by simp [e])
    have hcs : '\n' ∉ cs := fun e => h (List.mem_cons_of_mem _ e)
    rw [rawLines, if_neg hc, ih hcs]
    simp

theorem rawLines_prefix (p rest : List Char) (cur : List Char) :
    rawLines (p ++ '\n' :: rest) cur = rawLines (p ++ ['\n']) cur ++ rawLines rest [] := by
  induction p generalizing cur with
  | nil => simp [rawLines]
  | cons c cs ih =>
    by_cases hc : c = '\n'
    · rw [List.cons_append, List.cons_append, rawLines, rawLines, if_pos hc, if_pos hc, ih]
      rfl
    · rw [List.cons_append, List.cons_append, rawLines, rawLines, if_neg hc, if_neg hc, ih]

theorem rawLines_at_line_start (pre rest : List Char)
    (hpre : pre = [] ∨ pre.getLast? = some '\n') :
    rawLines (pre ++ rest) [] = rawLines pre [] ++ rawLines rest [] := by
  rcases hpre with rfl | h
  · simp [rawLines]
  · have e := List.dropLast_append_getLast? _ h
    rw [← e, List.append_assoc, List.singleton_append, rawLines_prefix]

theorem fieldsAux_append_cr (l cur : List Char) :
    fieldsAux (l ++ ['\r']) cur = fieldsAux l cur := by
  induction l generalizing cur with
  | nil =>
    have h : isSpace '\r' = true := by decide
    simp only [List.nil_append, fieldsAux, h, if_true]
    split <;> rfl
  | cons c cs ih =>
    rw [List.cons_append, fieldsAux, fieldsAux, ih, ih]

theorem fields_dropCR (l : List Char) :
    fields (String.mk (dropCR l)) = fields (String.mk l) := by
  unfold dropCR
  split
  · rename_i h
    have e := List.dropLast_append_getLast? _ h
    show fieldsAux l.dropLast [] = fieldsAux l []
    rw [← fieldsAux_append_cr, e]
  · rfl

theorem skippedLine_dropCR (l : List Char) :
    skippedLine (String.mk (dropCR l)) = skippedLine (String.mk l) := by
  unfold skippedLine
  rw [fields_dropCR]

theorem deliver_of_short (ls : List (List Char))
    (h : ∀ l, l ∈ ls → byteLen l < maxScanTokenSize) :
    deliver ls = ⟨ls.map (fun l => String.mk (dropCR l)), false⟩ := by
  induction ls with
  | nil => rfl
  | cons l rest ih =>
    have h1 : ¬ maxScanTokenSize ≤ byteLen l := not_le.2 (h l (List.mem_cons_self _ _))
    have h2 := ih (fun x hx => h x (List.mem_cons_of_mem _ hx))
    simp only [deliver, if_neg h1, h2, List.map_cons]

theorem deliver_insert (as bs : List (List Char)) (line : List Char)
    (hlen : byteLen line < maxScanTokenSize) :
    (∃ p q e, deliver (as ++ line :: bs) = ⟨p ++ String.mk (dropCR line) :: q, e⟩ ∧
        deliver (as ++ bs) = ⟨p ++ q, e⟩) ∨
      deliver (as ++ line :: bs) = deliver (as ++ bs) := by
  induction as with
  | nil =>
    refine Or.inl ⟨[], (deliver bs).lines, (deliver bs).scanErr, ?_, ?_⟩
    · simp only [List.nil_append, deliver, if_neg (not_le.2 hlen)]
    · rfl
  | cons a rest ih =>
    by_cases ha : maxScanTokenSize ≤ byteLen a
    · exact Or.inr (by rw [List.cons_append, List.cons_append, deliver, deliver, if_pos ha,
        if_pos ha])
    · rcases ih with ⟨p, q, e, h1, h2⟩ | h
      · refine Or.inl ⟨String.mk (dropCR a) :: p, q, e, ?_, ?_⟩
        · rw [List.cons_append, deliver, if_neg ha, h1]
          rfl
        · rw [List.cons_append, deliver, if_neg ha, h2]
          rfl
      · exact Or.inr (by rw [List.cons_append, List.cons_append, deliver, deliver, if_neg ha,
          if_neg ha, h])

theorem byteLen_replicate (n : Nat) (c : Char) :
    byteLen (List.replicate n c) = n * c.utf8Size := by
  simp [byteLen, List.map_replicate, List.sum_replicate]

theorem fieldsAux_blanks (n : Nat) : fieldsAux (List.replicate n ' ') [] = [] := by
  induction n with
  | zero => rfl
  | succ k ih =>
    have h : isSpace ' ' = true := by decide
    simp only [List.replicate_succ, fieldsAux, h, if_true, List.isEmpty_nil, ih]

theorem rawLines_insert (pre post : String) (l : List Char)
    (hpre : pre.toList = [] ∨ pre.toList.getLast? = some '\n') (hl : '\n' ∉ l) :
    rawLines (pre ++ String.mk l ++ "\n" ++ post).toList []
      = rawLines pre.toList [] ++ l :: rawLines post.toList [] := by
  have e : (pre ++ String.mk l ++ "\n" ++ post).toList
      = pre.toList ++ (l ++ '\n' :: post.toList) := by
    simp only [String.toList, String.data_append, List.append_assoc]
    rfl
  rw [e, rawLines_at_line_start _ _ hpre, rawLines_line l _ hl]
  rfl

theorem rawLines_remove (pre post : String)
    (hpre : pre.toList = [] ∨ pre.toList.getLast? = some '\n') :
    rawLines (pre ++ post).toList [] = rawLines pre.toList [] ++ rawLines post.toList [] := by
  have e : (pre ++ post).toList = pre.toList ++ post.toList := by
    simp only [String.toList, String.data_append]
  rw [e, rawLines_at_line_start _ _ hpre]

theorem deliver_long (as bs : List (List Char)) (l : List Char)
    (has : ∀ a, a ∈ as → byteLen a < maxScanTokenSize) (hl : maxScanTokenSize ≤ byteLen l) :
    deliver (as ++ l :: bs) = ⟨as.map (fun a => String.mk (dropCR a)), true⟩ := by
  induction as with
  | nil => rw [List.nil_append, deliver, if_pos hl]; rfl
  | cons a rest ih =>
    have h1 : ¬ maxScanTokenSize ≤ byteLen a := not_le.2 (has a (List.mem_cons_self _ _))
    rw [List.cons_append, deliver, if_neg h1, ih (fun x hx => has x (List.mem_cons_of_mem _ hx))]
    rfl

/-- A line of `n` equal characters, `n` at least the size of the scanner's
buffer, stops the scanner: the lines before it are delivered, with an error. -/
theorem scanText_long_line (pre post : String) (n : Nat) (c : Char) (hc : c ≠ '\n')
    (hpre : pre.toList = [] ∨ pre.toList.getLast? = some '\n')
    (hshort : ∀ a, a ∈ rawLines pre.toList [] → byteLen a < maxScanTokenSize)
    (hn : maxScanTokenSize ≤ n) :
    scanText (pre ++ String.mk (List.replicate n c) ++ "\n" ++ post)
      = ⟨textLines pre, true⟩ := by
  have hl : '\n' ∉ List.replicate n c := fun h => hc (List.eq_of_mem_replicate h).symm
  have hb : maxScanTokenSize ≤ byteLen (List.replicate n c) := by
    rw [byteLen_replicate]
    have h1 : 1 ≤ c.utf8Size := Char.utf8Size_pos c
    calc maxScanTokenSize ≤ n := hn
      _ = n * 1 := (Nat.mul_one n).symm
      _ ≤ n * c.utf8Size := Nat.mul_le_mul_left n h1
  unfold scanText
  rw [rawLines_insert pre post _ hpre hl, deliver_long _ _ _ hshort hb]
  rfl

theorem fieldsAux_run (n : Nat) (c : Char) (hc : isSpace c = false) (cur : List Char)
    (h : cur ≠ [] ∨ 0 < n) :
    fieldsAux (List.replicate n c) cur = [String.mk (cur.reverse ++ List.replicate n c)] := by
  induction n generalizing cur with
  | zero =>
    rcases h with h | h
    · cases cur with
      | nil => exact absurd rfl h
      | cons a as => simp [fieldsAux]
    · exact absurd h (by decide)
  | succ k ih =>
    rw [List.replicate_succ, fieldsAux, hc, ih (c :: cur) (Or.inl (by simp))]
    simp

theorem skippedLine_run (n : Nat) (c : Char) (hc : isSpace c = false) :
    skippedLine (String.mk (List.replicate n c)) = true := by
  unfold skippedLine fields
  cases n with
  | zero => rfl
  | succ k =>
    show (match fieldsAux (List.replicate (k + 1) c) [] with
      | [key, _] => !(recognizedKeys.contains key)
      | _ => true) = true
    rw [fieldsAux_run (k + 1) c hc [] (Or.inr (Nat.succ_pos k))]

theorem wellFormedLine_blanks (pf : String → Option F64) (n : Nat) :
    wellFormedLine pf (String.mk (dropCR (List.replicate n ' '))) := by
  unfold wellFormedLine
  rw [fields_dropCR]
  show (match fieldsAux (List.replicate n ' ') [] with
    | [key, value] =>
      (key ∈ checkedIntKeys → (parseInt value 64).2 = none) ∧
      (key ∈ uncheckedKeys → (parseInt value 32).2 = none) ∧
      (key ∈ floatKeys → pf value ≠ none)
    | _ => True)
  rw [fieldsAux_blanks]
  trivial

theorem textLines_insert (pre post : String) (l : List Char)
    (hpre : pre.toList = [] ∨ pre.toList.getLast? = some '\n') (hl : '\n' ∉ l) :
    textLines (pre ++ String.mk l ++ "\n" ++ post)
      = textLines pre ++ String.mk (dropCR l) :: textLines post := by
  unfold textLines
  rw [rawLines_insert pre post l hpre hl]
  simp only [List.map_append, List.map_cons]

/-! ## Header reader: claims on the text of a header -/

/-- Claim C11, refuted as stated: a skipped line changes the outcome when it
does not fit the scanner's buffer.  The header of two lines `NROWS 1` and
`NCOLS 1` is read into a record; with a line of 65536 letters `x` (one field,
hence skipped) inserted between them, `readHeaderFile` returns the scanner's
error. -/
theorem long_skipped_line_counterexample :
    skippedLine (String.mk (List.replicate 65536 'x')) = true ∧
      readHeaderFile (fun _ => none) (some (scanText ("NROWS 1\n" ++ "NCOLS 1\n")))
        = .ok { GTOPOHeaderInfo.zero with nrows := 1, ncols := 1 } ∧
      readHeaderFile (fun _ => none)
          (some (scanText
            ("NROWS 1\n" ++ String.mk (List.replicate 65536 'x') ++ "\n" ++ "NCOLS 1\n")))
        = .error .scanFailed := by
  refine ⟨skippedLine_run _ _ (by decide), by rfl, ?_⟩
  rw [scanText_long_line "NROWS 1\n" "NCOLS 1\n" 65536 'x' (by decide) (by decide) (by decide)
    (by decide)]
  rfl

/-- Claim C11, amended: inserting or deleting, at the start of any line of a
header text, a skipped line that is shorter than the scanner's buffer of 64 KiB
leaves the outcome of `readHeaderFile`, record or error, unchanged.  A skipped
line is blank, has a number of fields other than two, or has two fields and a
key that is not one of the fourteen recognized spellings. -/
theorem skipped_lines_do_not_matter (pf : String → Option F64) (pre line post : String)
    (hpre : pre.toList = [] ∨ pre.toList.getLast? = some '\n')
    (hline : '\n' ∉ line.toList)
    (hlen : byteLen line.toList < maxScanTokenSize)
    (hs : skippedLine line = true) :
    readHeaderFile pf (some (scanText (pre ++ line ++ "\n" ++ post)))
      = readHeaderFile pf (some (scanText (pre ++ post))) := by
  have hs2 : skippedLine (String.mk (dropCR line.toList)) = true := by
    rw [skippedLine_dropCR]
    exact hs
  have e1 := rawLines_insert pre post line.toList hpre hline
  have e2 := rawLines_remove pre post hpre
  unfold scanText
  rw [show pre ++ line ++ "\n" ++ post = pre ++ String.mk line.toList ++ "\n" ++ post from rfl,
    e1, e2]
  rcases deliver_insert (rawLines pre.toList []) (rawLines post.toList []) line.toList hlen
    with ⟨p, q, e, h1, h2⟩ | h
  · rw [h1, h2]
    exact readHeaderFile_skip pf p q _ e hs2
  · rw [h]

theorem skipped_lines_do_not_matter_witness :
    readHeaderFile (fun _ => none) (some (scanText ("NROWS 2\n" ++ "nrows 10" ++ "\n" ++ "NCOLS 3")))
        = readHeaderFile (fun _ => none) (some (scanText ("NROWS 2\n" ++ "NCOLS 3"))) ∧
      readHeaderFile (fun _ => none) (some (scanText ("NROWS 2\n" ++ "\r" ++ "\n" ++ "NCOLS 3")))
        = readHeaderFile (fun _ => none) (some (scanText ("NROWS 2\n" ++ "NCOLS 3"))) ∧
      readHeaderFile (fun _ => none) (some (scanText ("" ++ "NROWS 7 8" ++ "\n" ++ "NROWS bad")))
        = readHeaderFile (fun _ => none) (some (scanText ("" ++ "NROWS bad"))) :=
  ⟨skipped_lines_do_not_matter (fun _ => none) "NROWS 2\n" "nrows 10" "NCOLS 3"
      (by decide) (by decide) (by decide) (by decide),
    skipped_lines_do_not_matter (fun _ => none) "NROWS 2\n" "\r" "NCOLS 3"
      (by decide) (by decide) (by decide) (by decide),
    skipped_lines_do_not_matter (fun _ => none) "" "NROWS 7 8" "NROWS bad"
      (by decide) (by decide) (by decide) (by decide)⟩

/-- Claim C12, refuted as stated: a header text in which every value of a
recognized numeric key is well-formed is not always read.  The text of the line
`NROWS 1` followed by a line of 65536 blanks has only well-formed values, and
`readHeaderFile` returns the scanner's error for it. -/
theorem long_line_counterexample :
    (∀ line, line ∈ textLines
        ("NROWS 1\n" ++ String.mk (List.replicate 65536 ' ') ++ "\n" ++ "") →
        wellFormedLine (fun _ => none) line) ∧
      readHeaderFile (fun _ => none)
          (some (scanText ("NROWS 1\n" ++ String.mk (List.replicate 65536 ' ') ++ "\n" ++ "")))
        = .error .scanFailed := by
  constructor
  · intro line hline
    rw [textLines_insert _ _ _ (by decide)
      (fun h => absurd (List.eq_of_mem_replicate h) (by decide))] at hline
    have e1 : textLines "NROWS 1\n" = ["NROWS 1"] := by decide
    have e2 : textLines "" = [] := by decide
    rw [e1, e2] at hline
    rcases List.mem_append.1 hline with h | h
    · rw [List.mem_singleton.1 h]
      decide
    · have h3 := List.mem_singleton.1 h
      subst h3
      exact wellFormedLine_blanks _ _
  · rw [scanText_long_line "NROWS 1\n" "" 65536 ' ' (by decide) (by decide) (by decide)
      (by decide)]
    rfl

/-- Claim C12, amended: for every header text whose lines are all shorter than
the scanner's buffer of 64 KiB and in which every value of a recognized numeric
key is well-formed, `readHeaderFile` succeeds; each field of the record is the
parsed value of the last two-field line that carries the field's key
(`BYTEORDER` gives `M` for the value M and `L` for any other value), and a
field whose key is on no line keeps its zero value. -/
theorem readHeaderFile_last_assignment_wins (pf : String → Option F64) (text : String)
    (hlen : ∀ l, l ∈ rawLines text.toList [] → byteLen l < maxScanTokenSize)
    (hw : ∀ line, line ∈ textLines text → wellFormedLine pf line) :
    readHeaderFile pf (some (scanText text)) = .ok (specHeader pf (textLines text)) := by
  unfold scanText
  rw [deliver_of_short _ hlen]
  exact readHeaderFile_of_wellFormed pf _ hw

theorem readHeaderFile_last_assignment_wins_witness :
    readHeaderFile (fun _ => none)
        (some (scanText "BYTEORDER M\nNROWS 2\r\nnrows 7\nNROWS 6000\nBYTEORDER x\nNBANDS 1"))
        = .ok { GTOPOHeaderInfo.zero with byteOrder := 'L', nrows := 6000, nbands := 1 } ∧
      readHeaderFile (fun _ => none) (some (scanText "")) = .ok GTOPOHeaderInfo.zero :=
  ⟨readHeaderFile_last_assignment_wins (fun _ => none)
      "BYTEORDER M\nNROWS 2\r\nnrows 7\nNROWS 6000\nBYTEORDER x\nNBANDS 1"
      (by decide) (by decide),
    readHeaderFile_last_assignment_wins (fun _ => none) "" (by decide) (by decide)⟩

/-! ## Top-level query: the sentinel -/

theorem GetGTOPOElevation_of_fileName_error {arch : Arch} {pf : String → Option F64}
    {fs : FileSystem} {lat lon : F64} {base n : String} {e : GoError}
    (hn : getFileName lat lon = (n, some e)) :
    GetGTOPOElevation arch pf fs lat lon base = .ret (-9999) (some (.fileNamePhase e)) := by
  unfold GetGTOPOElevation
  rw [hn]

theorem GetGTOPOElevation_of_header_error {arch : Arch} {pf : String → Option F64}
    {fs : FileSystem} {lat lon : F64} {base n : String} {e : GoError}
    (hn : getFileName lat lon = (n, none))
    (hh : readHeaderFile pf (fs.hdr (base ++ "/" ++ n ++ ".HDR")) = .error e) :
    GetGTOPOElevation arch pf fs lat lon base = .ret (-9999) (some (.headerPhase e)) := by
  unfold GetGTOPOElevation
  rw [hn]
  simp only [hh]

theorem GetGTOPOElevation_of_header {arch : Arch} {pf : String → Option F64}
    {fs : FileSystem} {lat lon : F64} {base n : String} {h : GTOPOHeaderInfo}
    (hn : getFileName lat lon = (n, none))
    (hh : readHeaderFile pf (fs.hdr (base ++ "/" ++ n ++ ".HDR")) = .ok h) :
    GetGTOPOElevation arch pf fs lat lon base =
      match getElevation arch (fs.dem (base ++ "/" ++ n ++ ".DEM")) h.nrows h.ncols lat lon
          h.ulxmap h.ulymap h.xdim h.ydim with
      | .panic => .panic
      | .ret _ (some err) => .ret (-9999) (some (.elevationPhase err))
      | .ret elevation none => .ret elevation none := by
  unfold GetGTOPOElevation
  rw [hn]
  simp only [hh]

/-- Claim C13: whenever `GetGTOPOElevation` returns a non-nil error, the elevation
it returns is -9999, for every coordinate, base path, file system, architecture
and float parser.  Each failing phase is surfaced this way: a failure of the
locator, a failure of `readHeaderFile`, and a failure of `getElevation` (DEM not
opened, DEM short, indices out of bounds), whose own value is replaced. -/
theorem sentinel_on_every_error (arch : Arch) (pf : String → Option F64) (fs : FileSystem)
    (lat lon : F64) (base : String) :
    (∀ v e, GetGTOPOElevation arch pf fs lat lon base = .ret v (some e) → v = -9999) ∧
      (∀ n e, getFileName lat lon = (n, some e) →
        GetGTOPOElevation arch pf fs lat lon base = .ret (-9999) (some (.fileNamePhase e))) ∧
      (∀ n e, getFileName lat lon = (n, none) →
        readHeaderFile pf (fs.hdr (base ++ "/" ++ n ++ ".HDR")) = .error e →
        GetGTOPOElevation arch pf fs lat lon base = .ret (-9999) (some (.headerPhase e))) ∧
      (∀ n h v e, getFileName lat lon = (n, none) →
        readHeaderFile pf (fs.hdr (base ++ "/" ++ n ++ ".HDR")) = .ok h →
        getElevation arch (fs.dem (base ++ "/" ++ n ++ ".DEM")) h.nrows h.ncols lat lon
          h.ulxmap h.ulymap h.xdim h.ydim = .ret v (some e) →
        GetGTOPOElevation arch pf fs lat lon base
          = .ret (-9999) (some (.elevationPhase e))) := by
  have c : ∀ n h v e, getFileName lat lon = (n, none) →
      readHeaderFile pf (fs.hdr (base ++ "/" ++ n ++ ".HDR")) = .ok h →
      getElevation arch (fs.dem (base ++ "/" ++ n ++ ".DEM")) h.nrows h.ncols lat lon
        h.ulxmap h.ulymap h.xdim h.ydim = .ret v (some e) →
      GetGTOPOElevation arch pf fs lat lon base
        = .ret (-9999) (some (.elevationPhase e)) := by
    intro n h v e hn hh he
    rw [GetGTOPOElevation_of_header hn hh, he]
  refine ⟨?_, fun n e hn => GetGTOPOElevation_of_fileName_error hn,
    fun n e hn hh => GetGTOPOElevation_of_header_error hn hh, c⟩
  intro v e hg
  cases hn : getFileName lat lon with
  | mk n err =>
    cases err with
    | some e1 =>
      rw [GetGTOPOElevation_of_fileName_error hn] at hg
      simp only [Outcome.ret.injEq] at hg
      exact hg.1.symm
    | none =>
      cases hh : readHeaderFile pf (fs.hdr (base ++ "/" ++ n ++ ".HDR")) with
      | error e1 =>
        rw [GetGTOPOElevation_of_header_error hn hh] at hg
        simp only [Outcome.ret.injEq] at hg
        exact hg.1.symm
      | ok h =>
        rw [GetGTOPOElevation_of_header hn hh] at hg
        cases he : getElevation arch (fs.dem (base ++ "/" ++ n ++ ".DEM")) h.nrows h.ncols
            lat lon h.ulxmap h.ulymap h.xdim h.ydim with
        | panic => rw [he] at hg; simp at hg
        | ret v1 err1 =>
          rw [he] at hg
          cases err1 with
          | none => simp at hg
          | some e1 =>
            simp only [Outcome.ret.injEq] at hg
            exact hg.1.symm

theorem sentinel_on_every_error_witness :
    getElevation amd64 (some []) 1 1 (.fin 0) (.fin 0) (.fin 0) (.fin 0) (.fin 0) (.fin 0)
        = .ret 0 (some .demReadFailed) ∧
      GetGTOPOElevation amd64 (fun _ => none)
          ⟨fun _ => some ⟨["NROWS 1", "NCOLS 1"], false⟩, fun _ => some []⟩
          (.fin 0) (.fin 0) "data"
        = .ret (-9999) (some (.elevationPhase .demReadFailed)) :=
  ⟨by decide!,
    (sentinel_on_every_error amd64 (fun _ => none)
      ⟨fun _ => some ⟨["NROWS 1", "NCOLS 1"], false⟩, fun _ => some []⟩
      (.fin 0) (.fin 0) "data").2.2.2 "W020N40"
      { GTOPOHeaderInfo.zero with nrows := 1, ncols := 1 } 0 .demReadFailed
      (by decide) (by rfl) (by decide!)⟩

/-- Claim C14: for every coordinate with lat < -90, lat > 90, lon < -180 or
lon > 180, `GetGTOPOElevation` returns -9999 and the error of the locator,
whatever the base path and the files are. -/
theorem out_of_domain_query_fails (arch : Arch) (pf : String → Option F64) (fs : FileSystem)
    (lat lon : F64) (base : String)
    (h : F64.lt lat (.fin (-90)) = true ∨ F64.lt (.fin 90) lat = true ∨
      F64.lt lon (.fin (-180)) = true ∨ F64.lt (.fin 180) lon = true) :
    GetGTOPOElevation arch pf fs lat lon base
      = .ret (-9999) (some (.fileNamePhase .noFileName)) := by
  apply GetGTOPOElevation_of_fileName_error
  apply getFileName_outside
  intro hd
  rcases h with h | h | h | h
  · have h0 := lt_not_le h; rw [hd.1] at h0; exact absurd h0 (by simp)
  · have h0 := lt_not_le h; rw [hd.2.1] at h0; exact absurd h0 (by simp)
  · have h0 := lt_not_le h; rw [hd.2.2.1] at h0; exact absurd h0 (by simp)
  · have h0 := lt_not_le h; rw [hd.2.2.2] at h0; exact absurd h0 (by simp)

theorem out_of_domain_query_fails_witness :
    GetGTOPOElevation amd64 (fun _ => none) ⟨fun _ => none, fun _ => none⟩ (.fin 91) (.fin 0)
        "data" = .ret (-9999) (some (.fileNamePhase .noFileName)) ∧
      GetGTOPOElevation amd64 (fun _ => none)
          ⟨fun _ => some ⟨["NROWS 1", "NCOLS 1"], false⟩, fun _ => some [0, 7]⟩
          (.fin 91) (.fin 0) "data" = .ret (-9999) (some (.fileNamePhase .noFileName)) :=
  ⟨out_of_domain_query_fails amd64 (fun _ => none) ⟨fun _ => none, fun _ => none⟩ (.fin 91)
      (.fin 0) "data" (Or.inr (Or.inl (by decide))),
    out_of_domain_query_fails amd64 (fun _ => none)
      ⟨fun _ => some ⟨["NROWS 1", "NCOLS 1"], false⟩, fun _ => some [0, 7]⟩ (.fin 91) (.fin 0)
      "data" (Or.inr (Or.inl (by decide)))⟩

/-! ## Elevation sampler: decoding of the samples -/

theorem decodeInt16s_getElem (l : List Byte) (k : Nat) (h : 2 * k + 1 < l.length) :
    ∃ hi lo, l[2 * k]? = some hi ∧ l[2 * k + 1]? = some lo ∧
      (decodeInt16s l)[k]? = some (int16BE hi lo) := by
  induction k generalizing l with
  | zero =>
    match l, h with
    | hi :: lo :: rest, _ => exact ⟨hi, lo, by simp, by simp, by simp [decodeInt16s]⟩
  | succ k ih =>
    match l, h with
    | hi :: lo :: rest, h =>
      have h2 : 2 * k + 1 < rest.length := by
        simp only [List.length_cons] at h
        omega
      obtain ⟨a, b, e1, e2, e3⟩ := ih rest h2
      refine ⟨a, b, ?_, ?_, ?_⟩
      · have : 2 * (k + 1) = (2 * k) + 1 + 1 := by ring
        rw [this, List.getElem?_cons_succ, List.getElem?_cons_succ]
        exact e1
      · have : 2 * (k + 1) + 1 = (2 * k + 1) + 1 + 1 := by ring
        rw [this, List.getElem?_cons_succ, List.getElem?_cons_succ]
        exact e2
      · simp only [decodeInt16s, List.getElem?_cons_succ]
        exact e3

theorem loadGrid_of_enough {arch : Arch} {b : List Byte} {nrows ncols : Int}
    (hpos : 0 ≤ nrows * ncols)
    (hlen : 2 * (nrows * ncols) ≤ (b.length : Int))
    (halloc : 2 * (nrows * ncols) ≤ (arch.maxAlloc : Int)) :
    loadGrid arch (some b) nrows ncols
      = .loaded (decodeInt16s (b.take (2 * (nrows * ncols).toNat))) := by
  have hlt := arch.maxAlloc_lt
  have hw : wrap64 (nrows * ncols) = nrows * ncols :=
    wrap64_eq_self (by omega) (by omega)
  unfold loadGrid
  simp only [hw]
  rw [if_neg (by omega)]
  unfold binaryRead
  rw [if_neg (by omega)]

/-- Claim C15: for a DEM `b` of at least `2 * nrows * ncols` bytes whose grid
can be allocated, and indices `(row, col)` that pass the bounds check,
`getElevation` returns the two's-complement 16-bit value of the big-endian pair
`b[2k]`, `b[2k + 1]` with `k = row * ncols + col`; the bytes after the first
`2 * nrows * ncols` do not change the result. -/
theorem getElevation_decodes_big_endian (arch : Arch) (b : List Byte)
    (nrows ncols row col : Int) (lat lon ulxmap ulymap xdim ydim : F64)
    (hlen : 2 * (nrows * ncols) ≤ (b.length : Int))
    (halloc : 2 * (nrows * ncols) ≤ (arch.maxAlloc : Int))
    (hidx : pixelIndex arch lat lon ulxmap ulymap xdim ydim = (row, col))
    (hr0 : 0 ≤ row) (hr1 : row < nrows) (hc0 : 0 ≤ col) (hc1 : col < ncols) :
    (∃ hi lo : Byte, b[(2 * (row * ncols + col)).toNat]? = some hi ∧
        b[(2 * (row * ncols + col) + 1).toNat]? = some lo ∧
        getElevation arch (some b) nrows ncols lat lon ulxmap ulymap xdim ydim
          = .ret (if 256 * (hi.val : Int) + (lo.val : Int) < 32768
              then 256 * (hi.val : Int) + (lo.val : Int)
              else 256 * (hi.val : Int) + (lo.val : Int) - 65536) none) ∧
      ∀ extra : List Byte,
        getElevation arch (some (b ++ extra)) nrows ncols lat lon ulxmap ulymap xdim ydim
          = getElevation arch (some b) nrows ncols lat lon ulxmap ulymap xdim ydim := by
  have hpos : 0 ≤ nrows * ncols := mul_nonneg (by omega) (by omega)
  have hload := loadGrid_of_enough hpos hlen halloc
  constructor
  · have hglen := (loadGrid_loaded hload).2
    have hw : wrap64 (nrows * ncols) = nrows * ncols :=
      wrap64_eq_self (by omega) (by have := arch.maxAlloc_lt; omega)
    rw [hw] at hglen
    obtain ⟨v, hv, hres⟩ := getElevation_of_index hload hglen hidx hr0 hr1 hc0 hc1
    have hk1 : row * ncols + col < nrows * ncols := by
      have h1 : (row + 1) * ncols ≤ nrows * ncols :=
        mul_le_mul_of_nonneg_right (by omega) (by omega)
      have e : (row + 1) * ncols = row * ncols + ncols := by ring
      omega
    have hk0 : 0 ≤ row * ncols + col := add_nonneg (mul_nonneg hr0 (by omega)) hc0
    obtain ⟨k, hk⟩ := Int.eq_ofNat_of_zero_le hk0
    obtain ⟨n, hn⟩ := Int.eq_ofNat_of_zero_le hpos
    have hkn : k < n := by omega
    have hbn : 2 * n ≤ b.length := by omega
    have htl : 2 * k + 1 < (b.take (2 * n)).length := by
      rw [List.length_take]
      omega
    obtain ⟨hi, lo, e1, e2, e3⟩ := decodeInt16s_getElem (b.take (2 * n)) k htl
    rw [List.getElem?_take, if_pos (by omega)] at e1 e2
    have i1 : (2 * (row * ncols + col)).toNat = 2 * k := by omega
    have i2 : (2 * (row * ncols + col) + 1).toNat = 2 * k + 1 := by omega
    have i3 : (row * ncols + col).toNat = k := by omega
    have i4 : (nrows * ncols).toNat = n := by omega
    rw [i3, i4, e3] at hv
    have hvv : v = int16BE hi lo := (Option.some.inj hv).symm
    refine ⟨hi, lo, by rw [i1]; exact e1, by rw [i2]; exact e2, ?_⟩
    rw [hres, hvv]
    rfl
  · intro extra
    have hlen2 : 2 * (nrows * ncols) ≤ ((b ++ extra).length : Int) := by
      rw [List.length_append]
      push_cast
      omega
    have hload2 := loadGrid_of_enough hpos hlen2 halloc
    have ht : (b ++ extra).take (2 * (nrows * ncols).toNat)
        = b.take (2 * (nrows * ncols).toNat) :=
      List.take_append_of_le_length (by omega)
    unfold getElevation
    rw [hload, hload2, ht]

theorem getElevation_decodes_big_endian_witness :
    (∃ hi lo : Byte, ([0, 10, 255, 254, 128, 0, 0, 40, 9, 9] : List Byte)[2]? = some hi ∧
        ([0, 10, 255, 254, 128, 0, 0, 40, 9, 9] : List Byte)[3]? = some lo ∧
        getElevation amd64 (some [0, 10, 255, 254, 128, 0, 0, 40, 9, 9]) 2 2 (.fin (3 / 2))
            (.fin (3 / 2)) (.fin (1 / 2)) (.fin (3 / 2)) (.fin 1) (.fin 1)
          = .ret (if 256 * (hi.val : Int) + (lo.val : Int) < 32768
              then 256 * (hi.val : Int) + (lo.val : Int)
              else 256 * (hi.val : Int) + (lo.val : Int) - 65536) none) ∧
      getElevation amd64 (some [0, 10, 255, 254, 128, 0, 0, 40, 9, 9]) 2 2 (.fin (3 / 2))
          (.fin (3 / 2)) (.fin (1 / 2)) (.fin (3 / 2)) (.fin 1) (.fin 1) = .ret (-2) none :=
  ⟨(getElevation_decodes_big_endian amd64 [0, 10, 255, 254, 128, 0, 0, 40, 9, 9] 2 2 0 1
      (.fin (3 / 2)) (.fin (3 / 2)) (.fin (1 / 2)) (.fin (3 / 2)) (.fin 1) (.fin 1)
      (by decide) (by decide) (by decide!) (by decide) (by decide) (by decide) (by decide)).1,
    by decide!⟩

/-! ## Missing dimensions and unused header fields -/

theorem getElevation_of_zero_dim {arch : Arch} (file : Option (List Byte)) {nrows ncols : Int}
    (lat lon ulxmap ulymap xdim ydim : F64) (h0 : nrows = 0 ∨ ncols = 0) :
    getElevation arch file nrows ncols lat lon ulxmap ulymap xdim ydim
        = .ret (-9999) (some .demOpenFailed) ∨
      getElevation arch file nrows ncols lat lon ulxmap ulymap xdim ydim
        = .ret (-9999) (some .outOfBounds) := by
  have hz : nrows * ncols = 0 := by
    rcases h0 with h | h <;> simp [h]
  cases file with
  | none => exact Or.inl rfl
  | some b =>
    right
    have hload : loadGrid arch (some b) nrows ncols = .loaded [] := by
      rw [loadGrid_of_enough (by omega) (by omega) (by omega), hz]
      rfl
    unfold getElevation
    simp only [hload]
    rw [if_neg]
    intro hc
    rcases h0 with h | h
    · rw [h] at hc; omega
    · rw [h] at hc; omega

theorem lastValue_none_of_absent {lines : List String} {key : String}
    (h : ∀ l, l ∈ lines → valueFor key l = none) : lastValue lines key = none := by
  unfold lastValue
  have : List.filterMap (valueFor key) lines = [] := by
    rw [List.filterMap_eq_nil_iff]
    exact h
  rw [this]
  rfl

/-- Claim C16: with `nrows = 0` or `ncols = 0`, `getElevation` returns the value
-9999 and an error for every coordinate and every DEM, present or not; a header
that is read and has no line for NROWS (for NCOLS) yields `nrows = 0`
(`ncols = 0`); and `GetGTOPOElevation` then returns -9999 with an error. -/
theorem missing_dimension_is_detected (arch : Arch) (pf : String → Option F64) :
    (∀ (file : Option (List Byte)) (nrows ncols : Int) (lat lon ulxmap ulymap xdim ydim : F64),
        nrows = 0 ∨ ncols = 0 →
        getElevation arch file nrows ncols lat lon ulxmap ulymap xdim ydim
            = .ret (-9999) (some .demOpenFailed) ∨
          getElevation arch file nrows ncols lat lon ulxmap ulymap xdim ydim
            = .ret (-9999) (some .outOfBounds)) ∧
      (∀ (lines : List String) (scanErr : Bool) (h : GTOPOHeaderInfo),
        readHeaderFile pf (some ⟨lines, scanErr⟩) = .ok h →
        ((∀ l, l ∈ lines → valueFor "NROWS" l = none) → h.nrows = 0) ∧
          ((∀ l, l ∈ lines → valueFor "NCOLS" l = none) → h.ncols = 0)) ∧
      (∀ (fs : FileSystem) (lat lon : F64) (base : String) (h : GTOPOHeaderInfo),
        readHeaderFile pf (fs.hdr (base ++ "/" ++ (getFileName lat lon).1 ++ ".HDR")) = .ok h →
        h.nrows = 0 ∨ h.ncols = 0 →
        ∃ e, GetGTOPOElevation arch pf fs lat lon base = .ret (-9999) (some e)) := by
  refine ⟨fun file nrows ncols lat lon ulxmap ulymap xdim ydim h0 =>
    getElevation_of_zero_dim file lat lon ulxmap ulymap xdim ydim h0, ?_, ?_⟩
  · intro lines scanErr h hr
    have hs : scanLines pf lines GTOPOHeaderInfo.zero = .ok h := by
      unfold readHeaderFile at hr
      simp only at hr
      cases hsl : scanLines pf lines GTOPOHeaderInfo.zero with
      | error e => rw [hsl] at hr; exact absurd hr (by simp)
      | ok h1 =>
        rw [hsl] at hr
        simp only at hr
        split_ifs at hr
        rw [Except.ok.inj hr]
    have e := scanLines_eq_specHeader lines h hs
    constructor
    · intro habs
      rw [e]
      simp only [specHeader, lastValue_none_of_absent habs]
    · intro habs
      rw [e]
      simp only [specHeader, lastValue_none_of_absent habs]
  · intro fs lat lon base h hh h0
    cases hn : getFileName lat lon with
    | mk n err =>
      cases err with
      | some e1 => exact ⟨_, GetGTOPOElevation_of_fileName_error hn⟩
      | none =>
        rw [hn] at hh
        simp only at hh
        rw [GetGTOPOElevation_of_header hn hh]
        rcases getElevation_of_zero_dim (fs.dem (base ++ "/" ++ n ++ ".DEM")) lat lon
          h.ulxmap h.ulymap h.xdim h.ydim h0 with he | he
        · exact ⟨_, by rw [he]⟩
        · exact ⟨_, by rw [he]⟩

theorem missing_dimension_is_detected_witness :
    (∃ e, GetGTOPOElevation amd64 (fun _ => none)
        ⟨fun _ => some ⟨["BYTEORDER M", "NCOLS 2", "NBITS 16"], false⟩,
          fun _ => some [0, 10, 0, 20]⟩
        (.fin 0) (.fin 0) "data" = .ret (-9999) (some e)) ∧
      GetGTOPOElevation amd64 (fun _ => none)
        ⟨fun _ => some ⟨["BYTEORDER M", "NCOLS 2", "NBITS 16"], false⟩,
          fun _ => some [0, 10, 0, 20]⟩
        (.fin 0) (.fin 0) "data" = .ret (-9999) (some (.elevationPhase .outOfBounds)) :=
  ⟨(missing_dimension_is_detected amd64 (fun _ => none)).2.2
      ⟨fun _ => some ⟨["BYTEORDER M", "NCOLS 2", "NBITS 16"], false⟩,
        fun _ => some [0, 10, 0, 20]⟩
      (.fin 0) (.fin 0) "data"
      { GTOPOHeaderInfo.zero with byteOrder := 'M', ncols := 2, nbits := 16 }
      (by rfl) (Or.inl rfl),
    by decide!⟩

/-- Claim C20: two file systems with the same DEM at the tile's path, whose
headers are read into records that agree on nrows, ncols, ulxmap, ulymap, xdim
and ydim, give the same outcome of `GetGTOPOElevation` for the same coordinate,
whatever byteOrder, layout, nbands, nbits, bandRowBytes, totalRowBytes,
bandGapBytes and nodata are. -/
theorem unused_header_fields_do_not_matter (arch : Arch) (pf : String → Option F64)
    (fs1 fs2 : FileSystem) (lat lon : F64) (base : String) (h1 h2 : GTOPOHeaderInfo)
    (hdem : fs1.dem (base ++ "/" ++ (getFileName lat lon).1 ++ ".DEM")
      = fs2.dem (base ++ "/" ++ (getFileName lat lon).1 ++ ".DEM"))
    (hh1 : readHeaderFile pf (fs1.hdr (base ++ "/" ++ (getFileName lat lon).1 ++ ".HDR"))
      = .ok h1)
    (hh2 : readHeaderFile pf (fs2.hdr (base ++ "/" ++ (getFileName lat lon).1 ++ ".HDR"))
      = .ok h2)
    (hagree : h1.nrows = h2.nrows ∧ h1.ncols = h2.ncols ∧ h1.ulxmap = h2.ulxmap ∧
      h1.ulymap = h2.ulymap ∧ h1.xdim = h2.xdim ∧ h1.ydim = h2.ydim) :
    GetGTOPOElevation arch pf fs1 lat lon base = GetGTOPOElevation arch pf fs2 lat lon base := by
  cases hn : getFileName lat lon with
  | mk n err =>
    cases err with
    | some e1 =>
      rw [GetGTOPOElevation_of_fileName_error hn, GetGTOPOElevation_of_fileName_error hn]
    | none =>
      rw [hn] at hh1 hh2 hdem
      simp only at hh1 hh2 hdem
      obtain ⟨a1, a2, a3, a4, a5, a6⟩ := hagree
      rw [GetGTOPOElevation_of_header hn hh1, GetGTOPOElevation_of_header hn hh2, hdem, a1, a2,
        a3, a4, a5, a6]

theorem unused_header_fields_do_not_matter_witness :
    GetGTOPOElevation amd64 parseFloatSample
        ⟨fun _ => some ⟨["BYTEORDER L", "LAYOUT BSQ", "NROWS 1", "NCOLS 1", "NBANDS 3",
            "NBITS 8", "NODATA 5", "XDIM 1", "YDIM 1"], false⟩, fun _ => some [1, 2]⟩
        (.fin 0) (.fin 0) "data"
      = GetGTOPOElevation amd64 parseFloatSample
        ⟨fun _ => some ⟨["BYTEORDER M", "NROWS 1", "NCOLS 1", "XDIM 1", "YDIM 1"], false⟩,
          fun _ => some [1, 2]⟩
        (.fin 0) (.fin 0) "data" ∧
      GetGTOPOElevation amd64 parseFloatSample
        ⟨fun _ => some ⟨["BYTEORDER L", "LAYOUT BSQ", "NROWS 1", "NCOLS 1", "NBANDS 3",
            "NBITS 8", "NODATA 5", "XDIM 1", "YDIM 1"], false⟩, fun _ => some [1, 2]⟩
        (.fin 0) (.fin 0) "data" = .ret 258 none :=
  ⟨unused_header_fields_do_not_matter amd64 parseFloatSample
      ⟨fun _ => some ⟨["BYTEORDER L", "LAYOUT BSQ", "NROWS 1", "NCOLS 1", "NBANDS 3",
          "NBITS 8", "NODATA 5", "XDIM 1", "YDIM 1"], false⟩, fun _ => some [1, 2]⟩
      ⟨fun _ => some ⟨["BYTEORDER M", "NROWS 1", "NCOLS 1", "XDIM 1", "YDIM 1"], false⟩,
        fun _ => some [1, 2]⟩
      (.fin 0) (.fin 0) "data"
      { GTOPOHeaderInfo.zero with
        byteOrder := 'L', layout := "BSQ", nrows := 1, ncols := 1, nbands := 3, nbits := 8,
        nodata := 5, xdim := .fin 1, ydim := .fin 1 }
      { GTOPOHeaderInfo.zero with
        byteOrder := 'M', nrows := 1, ncols := 1, xdim := .fin 1, ydim := .fin 1 }
      rfl (by rfl) (by rfl) ⟨rfl, rfl, rfl, rfl, rfl, rfl⟩,
    by decide!⟩

/-! ## Elevation sampler: the product of the dimensions -/

/-- A short DEM is rejected when the grid is small: when the product
`nrows * ncols` is positive and small enough to be allocated, a DEM with fewer
than `2 * nrows * ncols` bytes makes `getElevation` return the read error, for
every coordinate. -/
theorem getElevation_short_file (arch : Arch) (b : List Byte) (nrows ncols : Int)
    (lat lon ulxmap ulymap xdim ydim : F64)
    (hpos : 0 < nrows * ncols)
    (halloc : 2 * (nrows * ncols) ≤ (arch.maxAlloc : Int))
    (hshort : (b.length : Int) < 2 * (nrows * ncols)) :
    getElevation arch (some b) nrows ncols lat lon ulxmap ulymap xdim ydim
      = .ret 0 (some .demReadFailed) := by
  have hlt := arch.maxAlloc_lt
  have hw : wrap64 (nrows * ncols) = nrows * ncols :=
    wrap64_eq_self (by omega) (by omega)
  have hload : loadGrid arch (some b) nrows ncols = .failed 0 .demReadFailed := by
    unfold loadGrid
    simp only [hw]
    rw [if_neg (by omega)]
    unfold binaryRead
    rw [if_pos (by omega)]
  unfold getElevation
  simp only [hload]

theorem getElevation_short_file_witness :
    getElevation amd64 (some [0, 10, 0, 20, 0, 30]) 2 2 (.fin (3 / 2)) (.fin (1 / 2)) (.fin (1 / 2))
      (.fin (3 / 2)) (.fin 1) (.fin 1) = .ret 0 (some .demReadFailed) :=
  getElevation_short_file amd64 [0, 10, 0, 20, 0, 30] 2 2 (.fin (3 / 2)) (.fin (1 / 2))
    (.fin (1 / 2)) (.fin (3 / 2)) (.fin 1) (.fin 1) (by decide) (by decide) (by decide)

/-- Claim C17 at its failing inputs.  With `nrows = 274177` and
`ncols = 67280421310721` the product is `2 ^ 64 + 1` and wraps to 1: a DEM of two
bytes is short, yet one sample is read and the lookup at the upper-left corner
returns it with no error.  With `nrows = 2 ^ 32`, `ncols = 2 ^ 31` (the product
wraps to a negative length) and with `nrows = ncols = 2 ^ 24` (the grid exceeds
the largest allocation) an empty DEM makes the call panic instead of returning an
error. -/
theorem short_file_not_rejected :
    ((0 : Int) < 274177 * 67280421310721 ∧
        (([0, 7] : List Byte).length : Int) < 2 * (274177 * 67280421310721) ∧
        getElevation amd64 (some [0, 7]) 274177 67280421310721 (.fin (3 / 2)) (.fin (1 / 2))
          (.fin (1 / 2)) (.fin (3 / 2)) (.fin 1) (.fin 1) = .ret 7 none) ∧
      getElevation amd64 (some []) (2 ^ 32) (2 ^ 31) (.fin (3 / 2)) (.fin (1 / 2))
        (.fin (1 / 2)) (.fin (3 / 2)) (.fin 1) (.fin 1) = .panic ∧
      getElevation amd64 (some []) (2 ^ 24) (2 ^ 24) (.fin (3 / 2)) (.fin (1 / 2))
        (.fin (1 / 2)) (.fin (3 / 2)) (.fin 1) (.fin 1) = .panic := by
  decide!

/-- Claim C18 at its failing input.  With `nrows = 2 ^ 62` and `ncols = 4` the
product wraps to 0: the empty DEM is read into an empty slice, the indices
`(0, 0)` pass the bounds check `0 ≤ i < nrows`, `0 ≤ j < ncols`, and the access
`data[0]` is out of range, so the call panics. -/
theorem index_out_of_range_reachable :
    loadGrid amd64 (some []) (2 ^ 62) 4 = .loaded [] ∧
      pixelIndex amd64 (.fin (3 / 2)) (.fin (1 / 2)) (.fin (1 / 2)) (.fin (3 / 2)) (.fin 1)
        (.fin 1) = (0, 0) ∧
      ((0 : Int) ≤ 0 ∧ (0 : Int) < 2 ^ 62 ∧ (0 : Int) < 4) ∧
      getElevation amd64 (some []) (2 ^ 62) 4 (.fin (3 / 2)) (.fin (1 / 2)) (.fin (1 / 2))
        (.fin (3 / 2)) (.fin 1) (.fin 1) = .panic := by
  decide!

/-! ## Tile locator: containment -/

theorem latLabelOf_spec {lat : F64} (h1 : F64.le (.fin (-90)) lat = true)
    (h2 : F64.le lat (.fin 90) = true) :
    ∃ lr, lr ∈ latRanges ∧ latLabelOf lat = lr.label ∧
      F64.le lr.min lat = true ∧ F64.le lat lr.max = true := by
  have hm := latLabelOf_mem lat h1 h2
  unfold latLabelOf at hm ⊢
  cases hf : latRanges.find? (fun lr => F64.ge lat lr.min && F64.le lat lr.max) with
  | none =>
    rw [hf] at hm
    exfalso
    revert hm
    decide
  | some lr =>
    have hp := List.find?_some hf
    simp only [Bool.and_eq_true, F64.ge] at hp
    exact ⟨lr, List.mem_of_find?_eq_some hf, rfl, hp.1, hp.2⟩

theorem lonLabelOf_spec {lon : F64} (h3 : F64.le (.fin (-180)) lon = true)
    (h4 : F64.le lon (.fin 180) = true) :
    ∃ r, r ∈ lonRanges ∧ lonLabelOf lon = r.label ∧
      F64.le r.min lon = true ∧ F64.le lon r.max = true := by
  have hm := lonLabelOf_mem lon h3 h4
  unfold lonLabelOf at hm ⊢
  cases hf : lonRanges.find? (fun lr => F64.ge lon lr.min && F64.le lon lr.max) with
  | none =>
    rw [hf] at hm
    exfalso
    revert hm
    decide
  | some r =>
    have hp := List.find?_some hf
    simp only [Bool.and_eq_true, F64.ge] at hp
    exact ⟨r, List.mem_of_find?_eq_some hf, rfl, hp.1, hp.2⟩

theorem polarSwitch_spec {lon : F64} (h3 : F64.le (.fin (-180)) lon = true)
    (h4 : F64.le lon (.fin 180) = true) :
    ∃ r, r ∈ polarRanges ∧ polarSwitch lon = some (r.label ++ "S60") ∧
      F64.le r.min lon = true ∧ F64.le lon r.max = true := by
  obtain ⟨b, rfl, hb1, hb2⟩ := between_fin h3 h4
  obtain ⟨c1, c2, c3, c4, c5, c6⟩ := polarSwitch_cases b
  by_cases k1 : b < -120
  · exact ⟨⟨.fin (-180), .fin (-120), "W180"⟩, by decide, c1 hb1 k1,
      by simpa [F64.le] using hb1, by simpa [F64.le] using k1.le⟩
  by_cases k2 : b < -60
  · exact ⟨⟨.fin (-120), .fin (-60), "W120"⟩, by decide, c2 (not_lt.1 k1) k2,
      by simpa [F64.le] using not_lt.1 k1, by simpa [F64.le] using k2.le⟩
  by_cases k3 : b < 0
  · exact ⟨⟨.fin (-60), .fin 0, "W060"⟩, by decide, c3 (not_lt.1 k2) k3,
      by simpa [F64.le] using not_lt.1 k2, by simpa [F64.le] using k3.le⟩
  by_cases k4 : b < 60
  · exact ⟨⟨.fin 0, .fin 60, "W000"⟩, by decide, c4 (not_lt.1 k3) k4,
      by simpa [F64.le] using not_lt.1 k3, by simpa [F64.le] using k4.le⟩
  by_cases k5 : b < 120
  · exact ⟨⟨.fin 60, .fin 120, "E060"⟩, by decide, c5 (not_lt.1 k4) k5,
      by simpa [F64.le] using not_lt.1 k4, by simpa [F64.le] using k5.le⟩
  · exact ⟨⟨.fin 120, .fin 180, "E120"⟩, by decide, c6 (not_lt.1 k5) hb2,
      by simpa [F64.le] using not_lt.1 k5, by simpa [F64.le] using hb2⟩

/-- Claim C19: for every in-domain point the id returned by `getFileName` is the
id of a tile of `nominalTiles` whose closed longitude slice (40 degrees wide for
N90, N40, S10 and 60 degrees wide for S60) and closed latitude band contain the
point; the ids of `nominalTiles` are pairwise different. -/
theorem tile_contains_point (lat lon : F64) (h : inDomain lat lon) :
    (nominalTiles.map (fun t => t.id)).Nodup ∧
      ∃ t, t ∈ nominalTiles ∧ getFileName lat lon = (t.id, none) ∧
        F64.le t.lon.min lon = true ∧ F64.le lon t.lon.max = true ∧
        F64.le t.lat.min lat = true ∧ F64.le lat t.lat.max = true := by
  refine ⟨by decide, ?_⟩
  obtain ⟨h1, h2, h3, h4⟩ := h
  obtain ⟨lr, hlr, elat, b1, b2⟩ := latLabelOf_spec h1 h2
  by_cases hS : lr.label = "S60"
  · obtain ⟨r, hr, epol, b3, b4⟩ := polarSwitch_spec h3 h4
    have hlr2 : lr = ⟨.fin (-90), .fin (-60), "S60"⟩ := by
      simp only [latRanges, List.mem_cons, List.mem_singleton, List.not_mem_nil, or_false] at hlr
      rcases hlr with rfl | rfl | rfl | rfl
      · exact absurd hS (by decide)
      · exact absurd hS (by decide)
      · exact absurd hS (by decide)
      · rfl
    refine ⟨⟨r.label ++ "S60", r, ⟨.fin (-90), .fin (-60), "S60"⟩⟩, ?_, ?_, b3, b4, ?_, ?_⟩
    · exact List.mem_append_right _ (List.mem_map.2 ⟨r, hr, rfl⟩)
    · exact getFileName_polar (by rw [elat, hS]) epol
    · rw [hlr2] at b1; exact b1
    · rw [hlr2] at b2; exact b2
  · obtain ⟨r, hr, elon, b3, b4⟩ := lonLabelOf_spec h3 h4
    have hlr3 : lr ∈ latRanges.take 3 := by
      simp only [latRanges, List.mem_cons, List.mem_singleton, List.not_mem_nil, or_false] at hlr
      rcases hlr with rfl | rfl | rfl | rfl
      · decide
      · decide
      · decide
      · exact absurd rfl hS
    have hs : latLabelOf lat ∈ ["N90", "N40", "S10"] := by
      rw [elat]
      simp only [latRanges, List.mem_cons, List.mem_singleton, List.not_mem_nil, or_false] at hlr
      rcases hlr with rfl | rfl | rfl | rfl
      · decide
      · decide
      · decide
      · exact absurd rfl hS
    have hp : lonLabelOf lon ∈ lonPrefixes := lonLabelOf_mem lon h3 h4
    refine ⟨⟨r.label ++ lr.label, r, lr⟩, ?_, ?_, b3, b4, b1, b2⟩
    · exact List.mem_append_left _
        (List.mem_flatten.2 ⟨_, List.mem_map.2 ⟨lr, hlr3, rfl⟩, List.mem_map.2 ⟨r, hr, rfl⟩⟩)
    · rw [getFileName_nonpolar hs hp, elat, elon]

theorem tile_contains_point_witness :
    (nominalTiles.map (fun t => t.id)).Nodup ∧
      ∃ t, t ∈ nominalTiles ∧ getFileName (.fin (-60)) (.fin (-140)) = (t.id, none) ∧
        F64.le t.lon.min (.fin (-140)) = true ∧ F64.le (.fin (-140)) t.lon.max = true ∧
        F64.le t.lat.min (.fin (-60)) = true ∧ F64.le (.fin (-60)) t.lat.max = true :=
  tile_contains_point (.fin (-60)) (.fin (-140)) ⟨by decide, by decide, by decide, by decide⟩

end GoTOPO30
